import Mathlib

/-!
# Host operations of the enclave library kernel (`src/lkl/posix-host.c`)

A shallow embedding of the futex-backed mutex, the counting semaphore and the
one-shot timer of `posix-host.c`, with the properties the specification states
about them.

Conventions of the embedding:

* `int` values are `Int`s, reduced with `wrapInt32` after every arithmetic step;
  the 31-bit bit-field `recursion_count` is reduced with `wrapInt31`; the mutex
  flag (an enumeration without negative enumerators, hence an `unsigned int`) is
  a `Nat` reduced modulo `2^32`.
* Thread handles (`struct lthread*`) are `Nat`s, `0` being `NULL`.
* Concurrency is modelled by interleaving: every atomic operation of the source
  is one step of one thread, `enclave_futex_wait` may return at any time.
-/

namespace SgxLkl

/-! ## Machine integers -/

/-- The largest `int`. -/
def INT_MAX : Int := 2147483647

/-- The smallest `int`. -/
def INT_MIN : Int := -2147483648

/-- Reduction of a mathematical integer to the 32-bit two's complement `int`. -/
def wrapInt32 (x : Int) : Int := (x + 2147483648) % 4294967296 - 2147483648

/-- Reduction of a mathematical integer to a signed 31-bit bit-field
(`int recursion_count : 31`). -/
def wrapInt31 (x : Int) : Int := (x + 1073741824) % 2147483648 - 1073741824

/-- Reduction to `unsigned int`, the type of `enum mutex_state`. -/
def wrapUInt32 (x : Int) : Nat := (x % 4294967296).toNat

/-! ## Futex calls issued by the primitives -/

/-- The calls to the futex collaborator, with the address they are issued on
left implicit (each primitive has a single futex word). -/
inductive FutexCall where
  /-- Call `enclave_futex_wait(addr, val)`. -/
  | wait (val : Int)
  /-- Call `enclave_futex_wake(addr, n)`. -/
  | wake (n : Int)
  deriving DecidableEq, Repr

/-! ## Mutex -/

/-- Enumerator `unlocked = 0` of `enum mutex_state`. -/
def unlocked : Nat := 0

/-- Enumerator `locked_no_waiters = 1` of `enum mutex_state`. -/
def locked_no_waiters : Nat := 1

/-- Enumerator `locked_waiters = 2` of `enum mutex_state`. -/
def locked_waiters : Nat := 2

/-- The `struct lkl_mutex`. -/
structure lkl_mutex where
  /-- The state of the mutex, used as the futex value. -/
  flag : Nat
  /-- The owning thread of a recursive mutex (`0` is `NULL`). -/
  owner : Nat
  /-- Whether the mutex is recursive. -/
  is_recursive : Bool
  /-- Number of locks of a recursive mutex beyond the first
  (`int recursion_count : 31`, a signed bit-field with values in
  `-2^30 .. 2^30 - 1`). -/
  recursion_count : Int
  deriving DecidableEq, Repr

/-- The function `mutex_alloc`: `oe_calloc` zeroes the structure, then the
recursive bit is set from the argument. -/
def mutex_alloc (recursive : Int) : lkl_mutex :=
  { flag := 0, owner := 0, is_recursive := decide (recursive ≠ 0), recursion_count := 0 }

/-- Program points of a thread inside `mutex_lock` and `mutex_unlock`. -/
inductive Pc where
  /-- Outside both functions. -/
  | idle
  /-- In `mutex_lock`, at `atomic_compare_exchange_weak`. -/
  | lock_cas
  /-- In `mutex_lock`, the exchange failed and left `state`; at the test
  `is_recursive && owner == lthread_self()`. -/
  | lock_check (state : Nat)
  /-- In `mutex_lock`, at `if (state != 2) state = atomic_exchange(..)`. -/
  | lock_mark (state : Nat)
  /-- In `mutex_lock`, at the test of `while (state != unlocked)`. -/
  | lock_loop (state : Nat)
  /-- In `mutex_lock`, inside `enclave_futex_wait`. -/
  | lock_wait
  /-- In `mutex_lock`, at the `atomic_exchange` of the loop body. -/
  | lock_xchg
  /-- In `mutex_lock`, the lock is acquired; at the final owner update. -/
  | lock_owner
  /-- In `mutex_unlock`, at the test of `is_recursive`. -/
  | unlock_entry
  /-- In `mutex_unlock`, at `atomic_fetch_sub`. -/
  | unlock_sub
  /-- In `mutex_unlock`, at the store `mutex->flag = 0`. -/
  | unlock_store
  /-- In `mutex_unlock`, at `enclave_futex_wake`. -/
  | unlock_wake
  deriving DecidableEq, Repr

/-- The local state of a thread using a mutex: its program point, and the
number of its `mutex_lock` calls that have returned and are not yet matched by
a started `mutex_unlock` (bookkeeping, not a field of the source). -/
structure Thread where
  /-- Program point. -/
  pc : Pc
  /-- Calls of `mutex_lock` returned and not yet undone. -/
  held : Nat
  deriving DecidableEq, Repr

/-- What a thread is asked to do: enter one of the two functions, or execute
the next operation of the function it is in; `cas_fails` tells whether a weak
compare-and-swap that could succeed fails spuriously. -/
inductive Action where
  /-- Call `mutex_lock`. -/
  | call_lock
  /-- Call `mutex_unlock`. -/
  | call_unlock
  /-- Execute the operation at the current program point. -/
  | run (cas_fails : Bool)
  deriving DecidableEq, Repr

/-- One step of thread `self` on the mutex `m`: the next operation of
`mutex_lock` or `mutex_unlock`, with the futex calls it issues.  A thread calls
`mutex_unlock` only while it holds the mutex; an action that does not apply at
the current program point leaves everything unchanged. -/
def thread_step (m : lkl_mutex) (self : Nat) (th : Thread) (a : Action) :
    lkl_mutex × Thread × List FutexCall :=
  match th.pc, a with
  | .idle, .call_lock => (m, { th with pc := .lock_cas }, [])
  | .idle, .call_unlock =>
    if 0 < th.held then (m, { pc := .unlock_entry, held := th.held - 1 }, [])
    else (m, th, [])
  | .lock_cas, .run cas_fails =>
    if m.flag = unlocked ∧ cas_fails = false then
      ({ m with flag := locked_no_waiters }, { th with pc := .lock_owner }, [])
    else (m, { th with pc := .lock_check m.flag }, [])
  | .lock_check state, .run _ =>
    if m.is_recursive = true ∧ m.owner = self then
      ({ m with recursion_count := wrapInt31 (m.recursion_count + 1) },
        { pc := .idle, held := th.held + 1 }, [])
    else (m, { th with pc := .lock_mark state }, [])
  | .lock_mark state, .run _ =>
    if state ≠ 2 then
      ({ m with flag := locked_waiters }, { th with pc := .lock_loop m.flag }, [])
    else (m, { th with pc := .lock_loop state }, [])
  | .lock_loop state, .run _ =>
    if state ≠ unlocked then
      (m, { th with pc := .lock_wait }, [FutexCall.wait (locked_waiters : Nat)])
    else (m, { th with pc := .lock_owner }, [])
  | .lock_wait, .run _ => (m, { th with pc := .lock_xchg }, [])
  | .lock_xchg, .run _ =>
    ({ m with flag := locked_waiters }, { th with pc := .lock_loop m.flag }, [])
  | .lock_owner, .run _ =>
    (if m.is_recursive = true then { m with owner := self } else m,
      { pc := .idle, held := th.held + 1 }, [])
  | .unlock_entry, .run _ =>
    if m.is_recursive = true then
      if 0 < m.recursion_count then
        ({ m with recursion_count := wrapInt31 (m.recursion_count - 1) },
          { th with pc := .idle }, [])
      else ({ m with owner := 0 }, { th with pc := .unlock_sub }, [])
    else (m, { th with pc := .unlock_sub }, [])
  | .unlock_sub, .run _ =>
    if m.flag ≠ locked_no_waiters then
      ({ m with flag := wrapUInt32 ((m.flag : Int) - 1) }, { th with pc := .unlock_store }, [])
    else ({ m with flag := wrapUInt32 ((m.flag : Int) - 1) }, { th with pc := .idle }, [])
  | .unlock_store, .run _ => ({ m with flag := 0 }, { th with pc := .unlock_wake }, [])
  | .unlock_wake, .run _ => (m, { th with pc := .idle }, [FutexCall.wake INT_MAX])
  | _, _ => (m, th, [])

/-- The mutex shared by the threads `0, 1, 2, …`, with the local state of each. -/
structure MutexSys where
  /-- The shared mutex. -/
  mutex : lkl_mutex
  /-- The local state of every thread. -/
  thr : Nat → Thread

/-- The system in which no thread has called anything yet, on a fresh mutex. -/
def MutexSys.init (recursive : Int) : MutexSys :=
  { mutex := mutex_alloc recursive, thr := fun _ => { pc := .idle, held := 0 } }

/-- One step of the interleaving: thread `e.1` performs action `e.2`. -/
def MutexSys.step (s : MutexSys) (e : Nat × Action) : MutexSys :=
  { mutex := (thread_step s.mutex e.1 (s.thr e.1) e.2).1,
    thr := Function.update s.thr e.1 (thread_step s.mutex e.1 (s.thr e.1) e.2).2.1 }

/-- The state reached by a schedule, a list of (thread, action) pairs. -/
def MutexSys.run (s : MutexSys) (es : List (Nat × Action)) : MutexSys :=
  es.foldl MutexSys.step s

/-- A thread is inside the critical section when a `mutex_lock` of it has
returned and it has not started the matching `mutex_unlock`. -/
def inside (s : MutexSys) (i : Nat) : Prop := 0 < (s.thr i).held

instance (s : MutexSys) (i : Nat) : Decidable (inside s i) := by
  unfold inside; infer_instance

/-! ### Mutual exclusion: the inductive invariant -/

/-- Program points at which the thread has acquired the flag and not yet given
it back. -/
def Pc.acquired : Pc → Bool
  | .lock_loop state => decide (state = 0)
  | .lock_owner => true
  | .unlock_entry => true
  | .unlock_sub => true
  | .unlock_store => true
  | _ => false

/-- The thread owns the flag: it is inside the critical section, or between
acquiring the flag and returning, or between starting to unlock and giving the
flag back. -/
def owns (th : Thread) : Prop := 0 < th.held ∨ th.pc.acquired = true

/-- Bookkeeping is consistent: at most one unmatched lock, none at an acquired
program point. -/
def Thread.wf (th : Thread) : Prop := (th.pc.acquired = true → th.held = 0) ∧ th.held ≤ 1

/-- The invariant of the non-recursive mutex: at most one thread owns the
flag, and while one does the flag is in a locked state. -/
def MutexInv (s : MutexSys) : Prop :=
  s.mutex.is_recursive = false ∧ (∀ i, (s.thr i).wf) ∧
  (∀ i j, owns (s.thr i) → owns (s.thr j) → i = j) ∧
  (∀ i, owns (s.thr i) → s.mutex.flag = 1 ∨ s.mutex.flag = 2)

/-- A schedule with three competing threads: thread 1 takes the lock on the fast
path, threads 2 and 3 fail the compare-and-swap, mark the flag and reach the
futex wait, thread 2 returns from the wait and exchanges again. -/
def contended_schedule : List (Nat × Action) :=
  [(1, .call_lock), (2, .call_lock), (3, .call_lock),
   (1, .run false), (2, .run false), (3, .run true), (1, .run false),
   (2, .run false), (2, .run false), (3, .run false), (3, .run false),
   (2, .run false), (3, .run false), (2, .run false), (2, .run false)]

/-! ### A thread running alone -/

/-- A mutex used by a single thread while no other thread acts, with the futex
calls issued so far. -/
structure Solo where
  /-- The mutex. -/
  mutex : lkl_mutex
  /-- The local state of the thread. -/
  th : Thread
  /-- The futex calls issued, oldest first. -/
  calls : List FutexCall
  deriving DecidableEq, Repr

/-- The thread `self` performs one action. -/
def Solo.act (s : Solo) (self : Nat) (a : Action) : Solo :=
  { mutex := (thread_step s.mutex self s.th a).1,
    th := (thread_step s.mutex self s.th a).2.1,
    calls := s.calls ++ (thread_step s.mutex self s.th a).2.2 }

/-- Run the function the thread is in until it returns (`idle`) or reaches
`enclave_futex_wait`, where a thread running alone sleeps; the first argument
bounds the number of operations. -/
def Solo.finish : Nat → Nat → Bool → Solo → Solo
  | 0, _, _, s => s
  | n + 1, self, cas_fails, s =>
    match s.th.pc with
    | .idle => s
    | .lock_wait => s
    | _ => Solo.finish n self cas_fails (s.act self (.run cas_fails))

/-- The function `mutex_lock` called by `self` with no other thread acting.  No
path of `mutex_lock` to its return or to the futex wait has more than five
operations. -/
def mutex_lock (s : Solo) (self : Nat) (cas_fails : Bool) : Solo :=
  Solo.finish 8 self cas_fails (s.act self .call_lock)

/-- The function `mutex_unlock` called by `self` with no other thread acting. -/
def mutex_unlock (s : Solo) (self : Nat) : Solo :=
  Solo.finish 8 self false (s.act self .call_unlock)

/-- A thread that has called nothing yet, on the mutex `m`. -/
def Solo.start (m : lkl_mutex) : Solo :=
  { mutex := m, th := { pc := .idle, held := 0 }, calls := [] }

/-- The thread `self` calls `mutex_lock` `n` times in a row; `cas_fails k` tells
whether the compare-and-swap of call `k` fails spuriously. -/
def lock_n (self : Nat) (cas_fails : Nat → Bool) : Nat → Solo → Solo
  | 0, s => s
  | n + 1, s => mutex_lock (lock_n self cas_fails n s) self (cas_fails n)

/-- The thread `self` calls `mutex_unlock` `n` times in a row. -/
def unlock_n (self : Nat) : Nat → Solo → Solo
  | 0, s => s
  | n + 1, s => mutex_unlock (unlock_n self n s) self

/-! ## Semaphore -/

/-- The `struct lkl_sem`. -/
structure lkl_sem where
  /-- Semaphore count, an atomic `int`. -/
  count : Int
  deriving DecidableEq, Repr

/-- The function `sem_alloc` (allocation succeeding): the count is set to the
argument. -/
def sem_alloc (count : Int) : lkl_sem := { count := count }

/-- Program points of a thread inside `sem_up` and `sem_down`. -/
inductive SemPc where
  /-- Outside both functions. -/
  | idle
  /-- In `sem_down`, at the initial load `int count = sem->count`. -/
  | down_load
  /-- In `sem_down`, at the loop condition, with the local `count`. -/
  | down_test (count : Int)
  /-- In `sem_down`, at the `if (count == 0)` of the loop body. -/
  | down_body (count : Int)
  /-- In `sem_down`, inside `enclave_futex_wait`. -/
  | down_wait
  /-- In `sem_down`, at the reload `count = sem->count` after the wait. -/
  | down_reload
  /-- In `sem_up`, at `atomic_fetch_add`. -/
  | up_add
  /-- In `sem_up`, at `enclave_futex_wake`. -/
  | up_wake
  deriving DecidableEq, Repr

/-- What a thread using a semaphore is asked to do. -/
inductive SemAction where
  /-- Call `sem_up`. -/
  | call_up
  /-- Call `sem_down`. -/
  | call_down
  /-- Execute the operation at the current program point. -/
  | run (cas_fails : Bool)
  deriving DecidableEq, Repr

/-- The outcome of one step of a thread on a semaphore. -/
structure SemStep where
  /-- The semaphore after the step. -/
  sem : lkl_sem
  /-- The program point after the step. -/
  pc : SemPc
  /-- The futex calls issued by the step. -/
  calls : List FutexCall
  /-- The step completed a `sem_down` (its compare-and-swap succeeded). -/
  acquired : Bool
  /-- The step performed the increment of a `sem_up`. -/
  released : Bool
  deriving DecidableEq, Repr

/-- One step of a thread on the semaphore: the next operation of `sem_up` or
`sem_down`. -/
def sem_step (sem : lkl_sem) (pc : SemPc) (a : SemAction) : SemStep :=
  match pc, a with
  | .idle, .call_up => ⟨sem, .up_add, [], false, false⟩
  | .idle, .call_down => ⟨sem, .down_load, [], false, false⟩
  | .down_load, .run _ => ⟨sem, .down_test sem.count, [], false, false⟩
  | .down_test count, .run cas_fails =>
    if count = 0 then ⟨sem, .down_body count, [], false, false⟩
    else if sem.count = count ∧ cas_fails = false then
      ⟨{ sem with count := wrapInt32 (count - 1) }, .idle, [], true, false⟩
    else ⟨sem, .down_body sem.count, [], false, false⟩
  | .down_body count, .run _ =>
    if count = 0 then ⟨sem, .down_wait, [FutexCall.wait 0], false, false⟩
    else ⟨sem, .down_test count, [], false, false⟩
  | .down_wait, .run _ => ⟨sem, .down_reload, [], false, false⟩
  | .down_reload, .run _ => ⟨sem, .down_test sem.count, [], false, false⟩
  | .up_add, .run _ =>
    if sem.count = 0 then
      ⟨{ sem with count := wrapInt32 (sem.count + 1) }, .up_wake, [], false, true⟩
    else ⟨{ sem with count := wrapInt32 (sem.count + 1) }, .idle, [], false, true⟩
  | .up_wake, .run _ => ⟨sem, .idle, [FutexCall.wake INT_MAX], false, false⟩
  | _, _ => ⟨sem, pc, [], false, false⟩

/-- The semaphore shared by the threads `0, 1, 2, …`, with the program point of
each and two counters of what has happened so far. -/
structure SemSys where
  /-- The shared semaphore. -/
  sem : lkl_sem
  /-- The program point of every thread. -/
  pcs : Nat → SemPc
  /-- Number of `sem_down` calls that have completed. -/
  downs : Nat
  /-- Number of `sem_up` increments performed. -/
  ups : Nat

/-- The system in which no thread has called anything yet, on a semaphore
created with count `c`. -/
def SemSys.init (c : Int) : SemSys :=
  { sem := sem_alloc c, pcs := fun _ => .idle, downs := 0, ups := 0 }

/-- One step of the interleaving: thread `e.1` performs action `e.2`. -/
def SemSys.step (s : SemSys) (e : Nat × SemAction) : SemSys :=
  { sem := (sem_step s.sem (s.pcs e.1) e.2).sem,
    pcs := Function.update s.pcs e.1 (sem_step s.sem (s.pcs e.1) e.2).pc,
    downs := s.downs + if (sem_step s.sem (s.pcs e.1) e.2).acquired = true then 1 else 0,
    ups := s.ups + if (sem_step s.sem (s.pcs e.1) e.2).released = true then 1 else 0 }

/-- The state reached by a schedule. -/
def SemSys.run (s : SemSys) (es : List (Nat × SemAction)) : SemSys :=
  es.foldl SemSys.step s

/-- The function `sem_up` run without interference: the fetch-and-add, then the
wake if it is reached.  The result is the semaphore and the futex calls. -/
def sem_up (sem : lkl_sem) : lkl_sem × List FutexCall :=
  let r1 := sem_step sem .up_add (.run false)
  match r1.pc with
  | .up_wake => ((sem_step r1.sem .up_wake (.run false)).sem,
      r1.calls ++ (sem_step r1.sem .up_wake (.run false)).calls)
  | _ => (r1.sem, r1.calls)

/-- The conservation invariant of a semaphore created with count `c`: as long
as `c` plus the number of increments fits an `int`, the count is non-negative
and completed acquires plus count equal `c` plus the increments. -/
def SemInv (c : Int) (s : SemSys) : Prop :=
  c + s.ups ≤ INT_MAX → 0 ≤ s.sem.count ∧ (s.downs : Int) + s.sem.count = c + s.ups

/-- A schedule on a semaphore: thread 1 acquires, thread 2 finds the count 0
and reaches the futex wait, thread 3 releases and wakes, thread 2 reloads and
acquires. -/
def sem_schedule : List (Nat × SemAction) :=
  [(1, .call_down), (2, .call_down), (1, .run false), (1, .run false),
   (2, .run false), (2, .run false), (2, .run false), (3, .call_up),
   (3, .run false), (3, .run false), (2, .run false), (2, .run false),
   (2, .run false), (2, .run false)]

/-! ## Timer -/

/-- The constant `NSEC_PER_SEC`. -/
def NSEC_PER_SEC : Nat := 1000000000

/-- The fields of `struct sgxlkl_timer` that the timer functions read or write.
The embedded mutex `mtx` is represented by the lock and unlock operations in
the trace of the calling thread; the callback is represented by what it asks of
the timer (see `run_callback`). -/
structure sgxlkl_timer where
  /-- The callback function pointer (`0` is `NULL`). -/
  callback_fn : Nat
  /-- Delay until the next fire (`unsigned long long`). -/
  delay_ns : Nat
  /-- Delay requested by the callback for the next cycle, 0 if none. -/
  next_delay_ns : Nat
  /-- The worker thread (`0` is `NULL`). -/
  thread : Nat
  /-- Free-running counter used as the futex word (`_Atomic(int)`). -/
  wake : Int
  /-- Whether the timer is armed. -/
  armed : Bool
  deriving DecidableEq, Repr

/-- The operations a thread performs on a timer, in program order. -/
inductive TimerOp where
  /-- Call `mutex_lock(&timer->mtx)`. -/
  | mutex_lock
  /-- Call `mutex_unlock(&timer->mtx)`. -/
  | mutex_unlock
  /-- Store to `timer->armed`. -/
  | set_armed (b : Bool)
  /-- Store to `timer->delay_ns`. -/
  | set_delay (ns : Nat)
  /-- Store to `timer->next_delay_ns`. -/
  | set_next_delay (ns : Nat)
  /-- The increment `timer->wake++`. -/
  | wake_incr
  /-- Call `enclave_futex_wake(&timer->wake, n)`. -/
  | futex_wake (n : Int)
  /-- Call `enclave_futex_timedwait(&timer->wake, val, &timeout)`. -/
  | futex_timedwait (val : Int) (tv_sec tv_nsec : Nat)
  /-- Call `lthread_create(&timer->thread, NULL, &timer_callback, timer)`. -/
  | lthread_create
  /-- Call `lthread_join(thread, ..)`. -/
  | lthread_join (thread : Nat)
  /-- Call `timer->callback_fn(timer->callback_arg)`. -/
  | callback
  /-- Call `sgxlkl_warn`. -/
  | warn
  /-- Call `oe_free(timer)`. -/
  | oe_free
  /-- Call `lthread_exit(NULL)`. -/
  | lthread_exit
  deriving DecidableEq, Repr

/-- A timer together with the trace of the operations performed on it by the
thread under consideration, oldest first. -/
structure TimerState where
  /-- The timer fields. -/
  timer : sgxlkl_timer
  /-- The operations performed so far. -/
  log : List TimerOp
  deriving DecidableEq, Repr

/-- Record an operation that changes no field. -/
def TimerState.emit (s : TimerState) (op : TimerOp) : TimerState :=
  { s with log := s.log ++ [op] }

/-- The store `timer->armed = b`. -/
def TimerState.set_armed (s : TimerState) (b : Bool) : TimerState :=
  { timer := { s.timer with armed := b }, log := s.log ++ [.set_armed b] }

/-- The store `timer->delay_ns = ns`. -/
def TimerState.set_delay (s : TimerState) (ns : Nat) : TimerState :=
  { timer := { s.timer with delay_ns := ns }, log := s.log ++ [.set_delay ns] }

/-- The store `timer->next_delay_ns = ns`. -/
def TimerState.set_next_delay (s : TimerState) (ns : Nat) : TimerState :=
  { timer := { s.timer with next_delay_ns := ns }, log := s.log ++ [.set_next_delay ns] }

/-- The increment `timer->wake++` of the atomic `int`. -/
def TimerState.wake_incr (s : TimerState) : TimerState :=
  { timer := { s.timer with wake := wrapInt32 (s.timer.wake + 1) },
    log := s.log ++ [.wake_incr] }

/-- The function `timer_alloc` (allocation succeeding): `oe_calloc` zeroes the
structure, then the callback is stored. -/
def timer_alloc (fn : Nat) : TimerState :=
  { timer := { callback_fn := fn, delay_ns := 0, next_delay_ns := 0, thread := 0, wake := 0,
               armed := false },
    log := [] }

/-- The function `timer_set_oneshot` called by thread `self` with delay `ns`.
`res` and `handle` are the result of `lthread_create` and the thread it
creates, should it be called.  The result is the returned status with the new
state, or the message of `sgxlkl_fail`, which does not return. -/
def timer_set_oneshot (s : TimerState) (self ns : Nat) (res : Int) (handle : Nat) :
    Except String (Int × TimerState) :=
  if s.timer.thread = self then
    if s.timer.armed = false then .ok (-1, s)
    else if s.timer.next_delay_ns ≠ 0 then
      if ns < s.timer.next_delay_ns then .ok (0, s.set_next_delay ns)
      else .ok (0, s)
    else .ok (0, s.set_next_delay ns)
  else
    let s1 := s.emit .mutex_lock
    if s1.timer.armed = true then
      .ok (0, (((s1.set_delay ns).wake_incr).emit (.futex_wake 1)).emit .mutex_unlock)
    else
      let s2 := (((s1.set_armed true).set_delay ns).set_next_delay 0).emit .lthread_create
      if res ≠ 0 then .error "pthread_create(timer_thread) returned"
      else .ok (0, ({ s2 with timer := { s2.timer with thread := handle } }).emit .mutex_unlock)

/-- The function `timer_free`; `none` is the `NULL` pointer, `join_res` the
result of `lthread_join`, should it be called. -/
def timer_free (t : Option TimerState) (join_res : Int) : Except String TimerState :=
  match t with
  | none => .error "timer_free() called with NULL"
  | some s =>
    let s1 := s.emit .mutex_lock
    if s1.timer.armed = true then
      let s2 := ((((s1.set_armed false).wake_incr).emit (.futex_wake 1)).emit
        .mutex_unlock).emit (.lthread_join s1.timer.thread)
      let s3 := if join_res ≠ 0 then s2.emit .warn else s2
      .ok (s3.emit .oe_free)
    else
      .ok ((s1.emit .mutex_unlock).emit .oe_free)

/-- The call `timer->callback_fn(timer->callback_arg)` made by the worker
`self`: the callback is any function whose effect on this timer is a sequence
of calls `timer_set_oneshot(timer, ns)`, one for each element of `requests`. -/
def run_callback (self : Nat) (s : TimerState) (requests : List Nat) : TimerState :=
  requests.foldl
    (fun st ns =>
      match timer_set_oneshot st self ns 0 0 with
      | .ok r => r.2
      | .error _ => st)
    (s.emit .callback)

/-- What surrounds one sleep of the worker. -/
structure WorkerEnv where
  /-- Whether `enclave_futex_timedwait` returned `-ETIMEDOUT`. -/
  did_timeout : Bool
  /-- What the other threads did to the timer while the worker had released
  the mutex. -/
  others : sgxlkl_timer → sgxlkl_timer
  /-- The delays the callback passes to `timer_set_oneshot`, if it is invoked. -/
  requests : List Nat

/-- The part of the loop body of `timer_callback` after the timer is found
armed: the callback is invoked if the wait timed out, and a delay it requested
becomes the delay of the next cycle. -/
def worker_fire (self : Nat) (s : TimerState) (env : WorkerEnv) : TimerState :=
  if env.did_timeout = true then
    let s1 := run_callback self (s.set_next_delay 0) env.requests
    if s1.timer.next_delay_ns ≠ 0 then (s1.set_delay s1.timer.next_delay_ns).set_next_delay 0
    else s1
  else s

/-- The part of the loop body of `timer_callback` from the snapshot of `wake`
to the reacquired mutex. -/
def worker_sleep (s : TimerState) (env : WorkerEnv) : TimerState :=
  let s1 := (s.emit .mutex_unlock).emit
    (.futex_timedwait s.timer.wake (s.timer.delay_ns / NSEC_PER_SEC)
      (s.timer.delay_ns % NSEC_PER_SEC))
  ({ s1 with timer := env.others s1.timer }).emit .mutex_lock

/-- Whether the worker loop goes on. -/
inductive LoopStatus where
  /-- The loop was left (`break`, or `timer->armed` false at the loop test). -/
  | stopped
  /-- The loop goes to its next iteration. -/
  | again
  deriving DecidableEq, Repr

/-- One iteration of the `do … while (timer->armed)` loop of `timer_callback`,
with the mutex held at entry and at exit. -/
def worker_iter (self : Nat) (s : TimerState) (env : WorkerEnv) : TimerState × LoopStatus :=
  if s.timer.delay_ns = 0 then (s, .stopped)
  else
    let s1 := worker_sleep s env
    if s1.timer.armed = false then (s1, .stopped)
    else
      let s2 := worker_fire self s1 env
      (s2, if s2.timer.armed = true then .again else .stopped)

/-- The loop of `timer_callback`, one element of `envs` for each iteration; the
status is `again` when the loop is still going after the last of them. -/
def worker_loop (self : Nat) : List WorkerEnv → TimerState → TimerState × LoopStatus
  | [], s => (s, .again)
  | env :: envs, s =>
    match worker_iter self s env with
    | (s1, .again) => worker_loop self envs s1
    | (s1, .stopped) => (s1, .stopped)

/-- The function `timer_callback`, the body of the worker thread `self`
(`none` is the `NULL` pointer): the mutex is taken, the loop runs, and once it
is left the mutex is released and the thread exits. -/
def timer_callback (self : Nat) (envs : List WorkerEnv) (t : Option TimerState) :
    Except String (TimerState × LoopStatus) :=
  match t with
  | none => .error "timer_callback() called with unitialised timer."
  | some s =>
    if s.timer.callback_fn = 0 then .error "timer_callback() called with unitialised timer."
    else
      match worker_loop self envs (s.emit .mutex_lock) with
      | (s1, .stopped) => .ok ((s1.emit .mutex_unlock).emit .lthread_exit, .stopped)
      | (s1, .again) => .ok (s1, .again)

/-- Number of invocations of the callback in a trace. -/
def callbacks (log : List TimerOp) : Nat := log.count .callback

/-- An armed timer with delay 50 whose worker is thread 9. -/
def armed_timer : TimerState :=
  { timer := { callback_fn := 1, delay_ns := 50, next_delay_ns := 0, thread := 9, wake := 0,
               armed := true },
    log := [] }

/-- The timer `armed_timer` as `timer_free` leaves it before releasing the
memory: disarmed, the counter bumped, the worker still recorded. -/
def torn_down_timer : TimerState :=
  { timer := { callback_fn := 1, delay_ns := 50, next_delay_ns := 0, thread := 9, wake := 1,
               armed := false },
    log := [] }

/-- An armed timer whose counter has reached `INT_MAX`. -/
def saturated_timer : TimerState :=
  { timer := { callback_fn := 1, delay_ns := 50, next_delay_ns := 0, thread := 9,
               wake := 2147483647, armed := true },
    log := [] }

/-- A sleep that times out, with no other thread acting and a callback that
does not touch the timer. -/
def plain_timeout : WorkerEnv := { did_timeout := true, others := id, requests := [] }

/-- What the callback cannot change on an armed timer whose worker it runs on. -/
def CallbackFrame (t : sgxlkl_timer) (n : Nat) (s : TimerState) : Prop :=
  s.timer.callback_fn = t.callback_fn ∧ s.timer.delay_ns = t.delay_ns ∧
  s.timer.thread = t.thread ∧ s.timer.wake = t.wake ∧ s.timer.armed = true ∧
  callbacks s.log = n

/-! ## Thread-lifecycle bridge -/

/-- The `struct lkl_tls_key`. -/
structure lkl_tls_key where
  /-- The key used by the lthreads library (a `long`). -/
  key : Int
  deriving DecidableEq, Repr

/-- The fields of `struct lthread` that `thread_destroy_host` reads, with the
address of the structure. -/
structure lthread where
  /-- The address of the structure, the thread handle. -/
  handle : Nat
  /-- The thread identifier, used in the trace message only. -/
  tid : Int
  /-- The thread joining this one (`0` is `NULL`). -/
  lt_join : Nat
  deriving DecidableEq, Repr

/-- The calls to the cooperative scheduler and to the futex layer made by the
thread-lifecycle bridge. -/
inductive SchedOp where
  /-- Call `lthread_create_primitive(&thread, pc, sp, tls)`. -/
  | lthread_create_primitive (pc sp tls : Nat)
  /-- Call `lthread_setspecific_remote(thread, key, value)` (`0` is `NULL`). -/
  | lthread_setspecific_remote (thread : Nat) (key : Int) (value : Nat)
  /-- Call `__scheduler_enqueue(thread)`. -/
  | scheduler_enqueue (thread : Nat)
  /-- Call `_lthread_desched_sleep(thread)`. -/
  | lthread_desched_sleep (thread : Nat)
  /-- Call `futex_dequeue(thread)`. -/
  | futex_dequeue (thread : Nat)
  /-- Call `_lthread_free(thread)`. -/
  | lthread_free (thread : Nat)
  deriving DecidableEq, Repr

/-- The function `thread_create_host`.  `ret` and `thread` are the result of
`lthread_create_primitive` and the thread it creates.  The result is the
returned handle with the calls made, in order, or the message of
`sgxlkl_fail`, which does not return. -/
def thread_create_host (pc sp tls : Nat) (task_key : lkl_tls_key) (task_value : Nat)
    (ret : Int) (thread : Nat) : Except String (Nat × List SchedOp) :=
  if ret ≠ 0 then .error "lthread_create failed"
  else
    .ok (thread,
      [.lthread_create_primitive pc sp tls,
       .lthread_setspecific_remote thread task_key.key task_value,
       .scheduler_enqueue thread])

/-- The function `thread_destroy_host`.  `asserts` tells whether the macro
`SGXLKL_ASSERT`, which is not part of this file, checks its argument; a failed
check does not return.  The result is the calls made, in order. -/
def thread_destroy_host (thr : lthread) (task_key : lkl_tls_key) (asserts : Bool) :
    Except String (List SchedOp) :=
  if asserts = true ∧ thr.lt_join ≠ 0 then .error "thr->lt_join == NULL"
  else
    .ok [.lthread_desched_sleep thr.handle,
         .futex_dequeue thr.handle,
         .lthread_setspecific_remote thr.handle task_key.key 0,
         .lthread_free thr.handle]

/-- The timer after `timer_set_oneshot(timer, ns)` called by thread `u`, the
worker creation succeeding; for a thread other than the worker, what an
external rearm does to the timer while the worker sleeps. -/
def rearmed_by (u ns : Nat) (t : sgxlkl_timer) : sgxlkl_timer :=
  match timer_set_oneshot { timer := t, log := [] } u ns 0 0 with
  | .ok r => r.2.timer
  | .error _ => t

/-- A timer armed for 500 whose worker is thread 9. -/
def slow_timer : TimerState :=
  { timer := { callback_fn := 1, delay_ns := 500, next_delay_ns := 0, thread := 9, wake := 0,
               armed := true },
    log := [] }

/-- A sleep ended by thread 5 rearming the timer for 20. -/
def rearm_during_sleep : WorkerEnv :=
  { did_timeout := false, others := rearmed_by 5 20, requests := [] }

/-! ### The timer shared by its worker and the threads that set or free it -/

/-- Program points of a thread inside `timer_callback` (`cb_`), inside the
branch of `timer_set_oneshot` taken by a thread other than the worker (`so_`)
and inside `timer_free` (`fr_`). -/
inductive TPc where
  /-- Outside the timer functions, or not created yet. -/
  | idle
  /-- In `timer_callback`, at the first `mutex_lock`. -/
  | cb_lock
  /-- In `timer_callback`, at the top of the loop, `if (timer->delay_ns <= 0)`. -/
  | cb_top
  /-- In `timer_callback`, at the snapshot `int wake = timer->wake`. -/
  | cb_snapshot
  /-- In `timer_callback`, at the `mutex_unlock` before the wait, with the
  snapshot and the number of increments performed when it was taken. -/
  | cb_unlock (wake : Int) (seen : Nat)
  /-- In `timer_callback`, at `enclave_futex_timedwait`, before it compares. -/
  | cb_wait (wake : Int) (seen : Nat)
  /-- In `timer_callback`, asleep inside `enclave_futex_timedwait`. -/
  | cb_asleep
  /-- In `timer_callback`, at the `mutex_lock` after the wait. -/
  | cb_relock (did_timeout : Bool)
  /-- In `timer_callback`, at `if (!timer->armed)`. -/
  | cb_armed (did_timeout : Bool)
  /-- In `timer_callback`, at the call of the callback. -/
  | cb_fire
  /-- In `timer_callback`, at the loop test `while (timer->armed)`. -/
  | cb_test
  /-- In `timer_callback`, at the final `mutex_unlock`. -/
  | cb_finish
  /-- In `timer_callback`, at `lthread_exit`. -/
  | cb_exit
  /-- The thread has exited. -/
  | exited
  /-- In `timer_set_oneshot`, at `mutex_lock`. -/
  | so_lock (ns : Nat)
  /-- In `timer_set_oneshot`, at `if (timer->armed)`. -/
  | so_armed (ns : Nat)
  /-- In `timer_set_oneshot`, at `timer->delay_ns = ns` of the armed branch. -/
  | so_delay (ns : Nat)
  /-- In `timer_set_oneshot`, at `timer->wake++`. -/
  | so_incr
  /-- In `timer_set_oneshot`, at `enclave_futex_wake`. -/
  | so_wake
  /-- In `timer_set_oneshot`, at `timer->armed = true`. -/
  | so_arm (ns : Nat)
  /-- In `timer_set_oneshot`, at `timer->delay_ns = ns` of the arming branch. -/
  | so_arm_delay (ns : Nat)
  /-- In `timer_set_oneshot`, at `timer->next_delay_ns = 0`. -/
  | so_arm_next
  /-- In `timer_set_oneshot`, at `lthread_create`. -/
  | so_create
  /-- In `timer_set_oneshot`, at `mutex_unlock`. -/
  | so_unlock
  /-- In `timer_free`, at `mutex_lock`. -/
  | fr_lock
  /-- In `timer_free`, at `atomic_compare_exchange_strong` on `armed`. -/
  | fr_cas
  /-- In `timer_free`, at `timer->wake++`. -/
  | fr_incr
  /-- In `timer_free`, at `enclave_futex_wake`. -/
  | fr_wake
  /-- In `timer_free`, at the `mutex_unlock` of the armed branch. -/
  | fr_unlock
  /-- In `timer_free`, at `lthread_join`. -/
  | fr_join
  /-- In `timer_free`, at the `mutex_unlock` of the branch not armed. -/
  | fr_unlock_unarmed
  /-- In `timer_free`, at `oe_free`. -/
  | fr_free
  deriving DecidableEq, Repr

/-- What a thread using the timer is asked to do. -/
inductive TAct where
  /-- Call `timer_set_oneshot(timer, ns)`. -/
  | call_set_oneshot (ns : Nat)
  /-- Call `timer_free(timer)`. -/
  | call_free
  /-- Execute the operation at the current program point.  `other` is the
  thread that `lthread_create` creates or that `enclave_futex_wake` wakes if it
  sleeps; `requests` are the delays the callback passes to
  `timer_set_oneshot`. -/
  | run (other : Nat) (requests : List Nat)
  /-- The timed wait of the sleeping thread expires. -/
  | timeout
  deriving DecidableEq, Repr

/-- The timer with its mutex, the program point of every thread, the number of
increments of `wake` performed so far (bookkeeping), and whether the memory has
been released.  The mutex `mtx` is represented by its holder. -/
structure TimerSys where
  /-- The timer fields. -/
  timer : sgxlkl_timer
  /-- The thread holding `timer->mtx`, if any. -/
  holder : Option Nat
  /-- The program point of every thread. -/
  thr : Nat → TPc
  /-- Number of increments of `wake` performed so far. -/
  incrs : Nat
  /-- Whether `oe_free` has released the timer. -/
  freed : Bool

/-- Modelled from the spec: the comparison made by `enclave_futex_timedwait`,
which is not part of this file.  The wait sleeps only if the futex word still
has the expected value (wait-if-value-unchanged); otherwise it returns
immediately, and not with `-ETIMEDOUT`. -/
def futex_sleeps (word val : Int) : Bool := decide (word = val)

/-- The timer after the worker `t` has run lines 581 to 589 of
`timer_callback`: pending delay reset, callback, pending delay applied. -/
def fired (t : Nat) (timer : sgxlkl_timer) (requests : List Nat) : sgxlkl_timer :=
  (worker_fire t { timer := timer, log := [] }
    { did_timeout := true, others := id, requests := requests }).timer

/-- The outcome of one step of a thread on the shared timer. -/
structure TStep where
  /-- The timer after the step. -/
  timer : sgxlkl_timer
  /-- The holder of the mutex after the step. -/
  holder : Option Nat
  /-- The program point of the thread after the step. -/
  pc : TPc
  /-- The number of increments after the step. -/
  incrs : Nat
  /-- Whether the timer is released after the step. -/
  freed : Bool
  /-- Another thread whose program point changes, with its new program point:
  the worker created, or the sleeper woken. -/
  other : Option (Nat × TPc)

/-- The step that changes nothing but the program point of the thread. -/
def TimerSys.goto (s : TimerSys) (pc : TPc) : TStep :=
  { timer := s.timer, holder := s.holder, pc := pc, incrs := s.incrs, freed := s.freed,
    other := none }

/-- The step `mutex_lock(&timer->mtx)` of thread `t`: the mutex is taken if it
is free, otherwise the thread stays where it is. -/
def TimerSys.acquire (s : TimerSys) (t : Nat) (blocked next : TPc) : TStep :=
  if s.holder = none then { s.goto next with holder := some t } else s.goto blocked

/-- The step `mutex_unlock(&timer->mtx)`. -/
def TimerSys.release (s : TimerSys) (next : TPc) : TStep :=
  { s.goto next with holder := none }

/-- The step `timer->wake++`. -/
def TimerSys.increment (s : TimerSys) (next : TPc) : TStep :=
  { s.goto next with
    timer := { s.timer with wake := wrapInt32 (s.timer.wake + 1) }, incrs := s.incrs + 1 }

/-- The step `enclave_futex_wake(&timer->wake, 1)`: the thread `other` is woken
if it sleeps on the counter. -/
def TimerSys.wake_one (s : TimerSys) (other : Nat) (next : TPc) : TStep :=
  if s.thr other = .cb_asleep then { s.goto next with other := some (other, .cb_relock false) }
  else s.goto next

/-- One step of thread `t` on the shared timer: the next operation of
`timer_callback`, `timer_set_oneshot` or `timer_free`.  A thread at
`mutex_lock` or at `lthread_join` stays there until the mutex is free or the
worker has exited; `timer_set_oneshot` called by the thread recorded in
`timer->thread` takes the branch without the mutex, in one step; the callback
runs in one step, and if it calls `timer_set_oneshot` on a worker that is not
the thread recorded in `timer->thread` it stays blocked on the mutex its worker
holds.  Nothing happens once the timer is released, and an action that does not
apply at the current program point changes nothing. -/
def timer_thread_step (s : TimerSys) (t : Nat) (a : TAct) : TStep :=
  if s.freed = true then s.goto (s.thr t)
  else
    match a with
    | .call_set_oneshot ns =>
      match s.thr t with
      | .idle =>
        if s.timer.thread = t then { s.goto .idle with timer := rearmed_by t ns s.timer }
        else s.goto (.so_lock ns)
      | pc => s.goto pc
    | .call_free =>
      match s.thr t with
      | .idle => s.goto .fr_lock
      | pc => s.goto pc
    | .timeout =>
      match s.thr t with
      | .cb_asleep => s.goto (.cb_relock true)
      | pc => s.goto pc
    | .run other requests =>
      match s.thr t with
      | .so_lock ns => s.acquire t (.so_lock ns) (.so_armed ns)
      | .so_armed ns =>
        if s.timer.armed = true then s.goto (.so_delay ns) else s.goto (.so_arm ns)
      | .so_delay ns => { s.goto .so_incr with timer := { s.timer with delay_ns := ns } }
      | .so_incr => s.increment .so_wake
      | .so_wake => s.wake_one other .so_unlock
      | .so_arm ns => { s.goto (.so_arm_delay ns) with timer := { s.timer with armed := true } }
      | .so_arm_delay ns =>
        { s.goto .so_arm_next with timer := { s.timer with delay_ns := ns } }
      | .so_arm_next => { s.goto .so_create with timer := { s.timer with next_delay_ns := 0 } }
      | .so_create =>
        if other ≠ 0 ∧ other ≠ t ∧ s.thr other = .idle then
          { s.goto .so_unlock with
            timer := { s.timer with thread := other }, other := some (other, .cb_lock) }
        else s.goto .so_create
      | .so_unlock => s.release .idle
      | .fr_lock => s.acquire t .fr_lock .fr_cas
      | .fr_cas =>
        if s.timer.armed = true then
          { s.goto .fr_incr with timer := { s.timer with armed := false } }
        else s.goto .fr_unlock_unarmed
      | .fr_incr => s.increment .fr_wake
      | .fr_wake => s.wake_one other .fr_unlock
      | .fr_unlock => s.release .fr_join
      | .fr_join =>
        if s.thr s.timer.thread = .exited then s.goto .fr_free else s.goto .fr_join
      | .fr_unlock_unarmed => s.release .fr_free
      | .fr_free => { s.goto .idle with freed := true }
      | .cb_lock => s.acquire t .cb_lock .cb_top
      | .cb_top => if s.timer.delay_ns = 0 then s.goto .cb_finish else s.goto .cb_snapshot
      | .cb_snapshot => s.goto (.cb_unlock s.timer.wake s.incrs)
      | .cb_unlock wake seen => s.release (.cb_wait wake seen)
      | .cb_wait wake _ =>
        if futex_sleeps s.timer.wake wake = true then s.goto .cb_asleep
        else s.goto (.cb_relock false)
      | .cb_asleep => s.goto (.cb_relock false)
      | .cb_relock did_timeout => s.acquire t (.cb_relock did_timeout) (.cb_armed did_timeout)
      | .cb_armed did_timeout =>
        if s.timer.armed = false then s.goto .cb_finish
        else if did_timeout = true then s.goto .cb_fire
        else s.goto .cb_test
      | .cb_fire =>
        if s.timer.thread = t ∨ requests = [] then
          { s.goto .cb_test with timer := fired t s.timer requests }
        else s.goto .cb_fire
      | .cb_test => if s.timer.armed = true then s.goto .cb_top else s.goto .cb_finish
      | .cb_finish => s.release .cb_exit
      | .cb_exit => s.goto .exited
      | .idle => s.goto .idle
      | .exited => s.goto .exited

/-- A timer created by `timer_alloc`, no thread having called anything yet. -/
def TimerSys.init (fn : Nat) : TimerSys :=
  { timer := (timer_alloc fn).timer, holder := none, thr := fun _ => .idle, incrs := 0,
    freed := false }

/-- One step of the interleaving: thread `e.1` performs action `e.2`. -/
def TimerSys.step (s : TimerSys) (e : Nat × TAct) : TimerSys :=
  { timer := (timer_thread_step s e.1 e.2).timer,
    holder := (timer_thread_step s e.1 e.2).holder,
    thr := Function.update
      (match (timer_thread_step s e.1 e.2).other with
       | some o => Function.update s.thr o.1 o.2
       | none => s.thr)
      e.1 (timer_thread_step s e.1 e.2).pc,
    incrs := (timer_thread_step s e.1 e.2).incrs,
    freed := (timer_thread_step s e.1 e.2).freed }

/-- The state reached by a schedule. -/
def TimerSys.run (s : TimerSys) (es : List (Nat × TAct)) : TimerSys :=
  es.foldl TimerSys.step s

/-- Program points at which the thread holds the timer mutex. -/
def TPc.holds : TPc → Bool
  | .cb_top => true
  | .cb_snapshot => true
  | .cb_unlock _ _ => true
  | .cb_armed _ => true
  | .cb_fire => true
  | .cb_test => true
  | .cb_finish => true
  | .so_armed _ => true
  | .so_delay _ => true
  | .so_incr => true
  | .so_wake => true
  | .so_arm _ => true
  | .so_arm_delay _ => true
  | .so_arm_next => true
  | .so_create => true
  | .so_unlock => true
  | .fr_cas => true
  | .fr_incr => true
  | .fr_wake => true
  | .fr_unlock => true
  | .fr_unlock_unarmed => true
  | _ => false

/-- What a program point records about the counter is right: between the
snapshot and the unlock the snapshot is the current value, and at the wait it
is the value the counter had after `seen` increments, `seen` of the `incrs`
performed so far. -/
def TPc.snapshot_ok (wake : Int) (incrs : Nat) : TPc → Prop
  | .cb_unlock v n => v = wake ∧ n = incrs
  | .cb_wait v n => v = wrapInt32 n ∧ n ≤ incrs
  | _ => True

/-- The invariant of the shared timer: the holder of the mutex is the one
thread at a program point inside the locked region, the counter is the number
of increments reduced to an `int`, and every snapshot is right. -/
def TimerInv (s : TimerSys) : Prop :=
  (∀ i, (s.thr i).holds = true ↔ s.holder = some i) ∧
  s.timer.wake = wrapInt32 s.incrs ∧
  (∀ i, (s.thr i).snapshot_ok s.timer.wake s.incrs)

/-- A schedule of the shared timer: thread 5 arms the timer for 500, which
creates the worker 9; the worker takes the mutex, snapshots the counter and
releases the mutex; before the worker's wait compares, thread 5 rearms the
timer for 20, which increments the counter. -/
def rearm_before_compare : List (Nat × TAct) :=
  [(5, .call_set_oneshot 500), (5, .run 0 []), (5, .run 0 []), (5, .run 0 []),
   (5, .run 0 []), (5, .run 0 []), (5, .run 9 []), (5, .run 0 []),
   (9, .run 0 []), (9, .run 0 []), (9, .run 0 []), (9, .run 0 []),
   (5, .call_set_oneshot 20), (5, .run 0 []), (5, .run 0 []), (5, .run 0 []),
   (5, .run 0 []), (5, .run 9 []), (5, .run 0 [])]

/-! # Properties -/

theorem thread_step_not_owner (m : lkl_mutex) (self : Nat) (th : Thread) (a : Action)
    (hrec : m.is_recursive = false) (hwf : th.wf) (hno : ¬ owns th) :
    (thread_step m self th a).1.is_recursive = false ∧ (thread_step m self th a).2.1.wf ∧
    ((¬ owns (thread_step m self th a).2.1 ∧
        ((thread_step m self th a).1.flag = m.flag ∨
          (m.flag ≠ 0 ∧ (thread_step m self th a).1.flag = 2))) ∨
      (owns (thread_step m self th a).2.1 ∧ m.flag = 0 ∧
        ((thread_step m self th a).1.flag = 1 ∨ (thread_step m self th a).1.flag = 2))) := by
  obtain ⟨pc, held⟩ := th
  simp only [owns, Thread.wf, not_or, not_lt, Nat.le_zero] at hwf hno ⊢
  obtain ⟨hh, hp⟩ := hno
  subst hh
  cases pc <;> cases a <;>
    simp_all [thread_step, Pc.acquired, unlocked, locked_no_waiters, locked_waiters] <;>
    (try split) <;> (try simp_all [Pc.acquired]) <;> (try omega)

theorem thread_step_owner (m : lkl_mutex) (self : Nat) (th : Thread) (a : Action)
    (hrec : m.is_recursive = false) (hwf : th.wf) (hown : owns th)
    (hflag : m.flag = 1 ∨ m.flag = 2) :
    (thread_step m self th a).1.is_recursive = false ∧ (thread_step m self th a).2.1.wf ∧
    ((owns (thread_step m self th a).2.1 ∧
        ((thread_step m self th a).1.flag = 1 ∨ (thread_step m self th a).1.flag = 2)) ∨
      ¬ owns (thread_step m self th a).2.1) := by
  obtain ⟨pc, held⟩ := th
  obtain ⟨flag, owner, isrec, cnt⟩ := m
  simp only [owns, Thread.wf] at hwf hown ⊢
  simp only at hrec hflag
  subst hrec
  have h10 : wrapUInt32 ((1 : Nat) - 1 : Int) = 0 := by decide
  have h21 : wrapUInt32 ((2 : Nat) - 1 : Int) = 1 := by decide
  rcases hflag with hf | hf <;> subst hf <;> cases pc <;> cases a <;>
    simp_all [thread_step, Pc.acquired, unlocked, locked_no_waiters, locked_waiters] <;>
    (try split) <;> (try simp_all [Pc.acquired])

theorem mutexInv_init : MutexInv (MutexSys.init 0) := by
  simp [MutexInv, MutexSys.init, mutex_alloc, Thread.wf, owns, Pc.acquired]

theorem mutexInv_step (s : MutexSys) (e : Nat × Action) (h : MutexInv s) :
    MutexInv (s.step e) := by
  obtain ⟨t, a⟩ := e
  obtain ⟨hrec, hwf, huniq, hflag⟩ := h
  by_cases hown : owns (s.thr t)
  · obtain ⟨h1, h2, h3⟩ :=
      thread_step_owner s.mutex t (s.thr t) a hrec (hwf t) hown (hflag t hown)
    have hothers : ∀ i, i ≠ t → ¬ owns (s.thr i) := fun i hi ho => hi (huniq i t ho hown)
    refine ⟨h1, ?_, ?_, ?_⟩
    · intro i
      by_cases hi : i = t
      · subst hi; simpa [MutexSys.step] using h2
      · simpa [MutexSys.step, Function.update_noteq hi] using hwf i
    · intro i j hi hj
      by_cases hit : i = t
      · by_cases hjt : j = t
        · rw [hit, hjt]
        · exact absurd (by simpa [MutexSys.step, Function.update_noteq hjt] using hj)
            (hothers j hjt)
      · exact absurd (by simpa [MutexSys.step, Function.update_noteq hit] using hi)
          (hothers i hit)
    · intro i hi
      by_cases hit : i = t
      · subst hit
        rcases h3 with ⟨_, hf⟩ | hn
        · exact hf
        · exact absurd (by simpa [MutexSys.step] using hi) hn
      · exact absurd (by simpa [MutexSys.step, Function.update_noteq hit] using hi)
          (hothers i hit)
  · obtain ⟨h1, h2, h3⟩ := thread_step_not_owner s.mutex t (s.thr t) a hrec (hwf t) hown
    refine ⟨h1, ?_, ?_, ?_⟩
    · intro i
      by_cases hi : i = t
      · subst hi; simpa [MutexSys.step] using h2
      · simpa [MutexSys.step, Function.update_noteq hi] using hwf i
    · intro i j hi hj
      by_cases hit : i = t
      · by_cases hjt : j = t
        · rw [hit, hjt]
        · have hj' : owns (s.thr j) := by
            simpa [MutexSys.step, Function.update_noteq hjt] using hj
          rcases h3 with ⟨hn, _⟩ | ⟨_, hz, _⟩
          · subst hit
            exact absurd (by simpa [MutexSys.step] using hi) hn
          · rcases hflag j hj' with hf | hf <;> omega
      · have hi' : owns (s.thr i) := by
          simpa [MutexSys.step, Function.update_noteq hit] using hi
        by_cases hjt : j = t
        · rcases h3 with ⟨hn, _⟩ | ⟨_, hz, _⟩
          · subst hjt
            exact absurd (by simpa [MutexSys.step] using hj) hn
          · rcases hflag i hi' with hf | hf <;> omega
        · exact huniq i j hi' (by simpa [MutexSys.step, Function.update_noteq hjt] using hj)
    · intro i hi
      by_cases hit : i = t
      · subst hit
        rcases h3 with ⟨hn, _⟩ | ⟨_, _, hf⟩
        · exact absurd (by simpa [MutexSys.step] using hi) hn
        · simpa [MutexSys.step] using hf
      · have hi' : owns (s.thr i) := by
          simpa [MutexSys.step, Function.update_noteq hit] using hi
        rcases h3 with ⟨_, hf | ⟨hnz, hf⟩⟩ | ⟨_, hz, _⟩
        · have := hflag i hi'
          simpa [MutexSys.step, hf] using this
        · right; simpa [MutexSys.step] using hf
        · rcases hflag i hi' with hf | hf <;> omega

theorem mutexInv_run (es : List (Nat × Action)) (s : MutexSys) (h : MutexInv s) :
    MutexInv (s.run es) := by
  induction es generalizing s with
  | nil => simpa [MutexSys.run] using h
  | cons e es ih => exact ih (s.step e) (mutexInv_step s e h)

/-! ### The recursive mutex used by one thread -/

theorem mutex_lock_fresh (t : Nat) (cf : Bool) (ht : t ≠ 0) :
    mutex_lock (Solo.start (mutex_alloc 1)) t cf =
      { mutex := { flag := if cf = true then 2 else 1, owner := t, is_recursive := true,
                   recursion_count := 0 },
        th := { pc := .idle, held := 1 }, calls := [] } := by
  have ht' : ¬ (0 = t) := fun h => ht h.symm
  cases cf <;>
    simp [mutex_lock, Solo.finish, Solo.act, Solo.start, mutex_alloc, thread_step, unlocked,
      locked_no_waiters, locked_waiters, ht']

theorem mutex_lock_nested (f t h : Nat) (c : Int) (calls : List FutexCall) (cf : Bool)
    (hf : f ≠ 0) :
    mutex_lock { mutex := { flag := f, owner := t, is_recursive := true, recursion_count := c },
                 th := { pc := .idle, held := h }, calls := calls } t cf =
      { mutex := { flag := f, owner := t, is_recursive := true,
                   recursion_count := wrapInt31 (c + 1) },
        th := { pc := .idle, held := h + 1 }, calls := calls } := by
  simp [mutex_lock, Solo.finish, Solo.act, thread_step, unlocked, hf]

theorem mutex_unlock_nested (f t h : Nat) (c : Int) (calls : List FutexCall) (hc : 0 < c) :
    mutex_unlock { mutex := { flag := f, owner := t, is_recursive := true, recursion_count := c },
                   th := { pc := .idle, held := h + 1 }, calls := calls } t =
      { mutex := { flag := f, owner := t, is_recursive := true,
                   recursion_count := wrapInt31 (c - 1) },
        th := { pc := .idle, held := h }, calls := calls } := by
  simp [mutex_unlock, Solo.finish, Solo.act, thread_step, hc]

theorem wrapUInt32_zero : wrapUInt32 0 = 0 := by decide
theorem wrapUInt32_one : wrapUInt32 1 = 1 := by decide

theorem mutex_unlock_outer (f t h : Nat) (c : Int) (calls : List FutexCall) (r : Bool)
    (hc : r = false ∨ ¬ 0 < c) (hf : f = 1 ∨ f = 2) :
    mutex_unlock { mutex := { flag := f, owner := t, is_recursive := r, recursion_count := c },
                   th := { pc := .idle, held := h + 1 }, calls := calls } t =
      { mutex := { flag := 0, owner := if r = true then 0 else t, is_recursive := r,
                   recursion_count := c },
        th := { pc := .idle, held := h },
        calls := calls ++ if f = 2 then [FutexCall.wake INT_MAX] else [] } := by
  cases r <;> rcases hf with hf | hf <;> subst hf
  · simp [mutex_unlock, Solo.finish, Solo.act, thread_step, locked_no_waiters, wrapUInt32_zero]
  · simp [mutex_unlock, Solo.finish, Solo.act, thread_step, locked_no_waiters, wrapUInt32_one]
  · have hc' : ¬ 0 < c := by simpa using hc
    simp [mutex_unlock, Solo.finish, Solo.act, thread_step, locked_no_waiters, wrapUInt32_zero, hc']
  · have hc' : ¬ 0 < c := by simpa using hc
    simp [mutex_unlock, Solo.finish, Solo.act, thread_step, locked_no_waiters, wrapUInt32_one, hc']
theorem mutex_lock_other (f t u : Nat) (c : Int) (cf : Bool) (hf : f = 1 ∨ f = 2)
    (hu : u ≠ t) :
    (mutex_lock (Solo.start { flag := f, owner := t, is_recursive := true,
                              recursion_count := c }) u cf).th.pc = .lock_wait := by
  have hu' : ¬ (t = u) := fun h => hu h.symm
  rcases hf with hf | hf <;> subst hf <;>
    simp [mutex_lock, Solo.finish, Solo.act, Solo.start, thread_step, unlocked, locked_waiters,
      hu']

theorem wrapInt31_id (x : Int) (h0 : -1073741824 ≤ x) (h1 : x < 1073741824) :
    wrapInt31 x = x := by
  unfold wrapInt31; omega

theorem lock_n_state (t : Nat) (cf : Nat → Bool) (ht : t ≠ 0) (n : Nat)
    (hn : n + 1 ≤ 1073741824) :
    lock_n t cf (n + 1) (Solo.start (mutex_alloc 1)) =
      { mutex := { flag := if cf 0 = true then 2 else 1, owner := t, is_recursive := true,
                   recursion_count := (n : Int) },
        th := { pc := .idle, held := n + 1 }, calls := [] } := by
  induction n with
  | zero => simpa [lock_n] using mutex_lock_fresh t (cf 0) ht
  | succ n ih =>
    have hf : (if cf 0 = true then 2 else 1) ≠ 0 := by split <;> decide
    have hw : wrapInt31 ((n : Int) + 1) = ((n + 1 : Nat) : Int) := by
      rw [wrapInt31_id _ (by omega) (by omega)]; push_cast; rfl
    rw [lock_n, ih (by omega), mutex_lock_nested _ _ _ _ _ _ hf, hw]

theorem unlock_n_state (f t n : Nat) (calls : List FutexCall) (hn : n < 1073741824)
    (k : Nat) (hk : k ≤ n) :
    unlock_n t k { mutex := { flag := f, owner := t, is_recursive := true,
                              recursion_count := (n : Int) },
                   th := { pc := .idle, held := n + 1 }, calls := calls } =
      { mutex := { flag := f, owner := t, is_recursive := true,
                   recursion_count := (n : Int) - (k : Int) },
        th := { pc := .idle, held := n + 1 - k }, calls := calls } := by
  induction k with
  | zero => simp [unlock_n]
  | succ k ih =>
    have e : n + 1 - k = (n + 1 - (k + 1)) + 1 := by omega
    have hpos : (0 : Int) < (n : Int) - (k : Int) := by omega
    have hw : wrapInt31 ((n : Int) - (k : Int) - 1) = (n : Int) - ((k + 1 : Nat) : Int) := by
      rw [wrapInt31_id _ (by omega) (by omega)]; push_cast; ring
    rw [unlock_n, ih (by omega), e, mutex_unlock_nested _ _ _ _ _ hpos, hw]

/-! ### Semaphore conservation -/

theorem semInv_init (c : Int) (hc : 0 ≤ c) : SemInv c (SemSys.init c) := by
  intro _
  simp [SemSys.init, sem_alloc, hc]

theorem sem_step_cases (sem : lkl_sem) (pc : SemPc) (a : SemAction) :
    ((sem_step sem pc a).sem = sem ∧ (sem_step sem pc a).acquired = false ∧
      (sem_step sem pc a).released = false) ∨
    ((sem_step sem pc a).acquired = true ∧ (sem_step sem pc a).released = false ∧
      sem.count ≠ 0 ∧ (sem_step sem pc a).sem.count = wrapInt32 (sem.count - 1)) ∨
    ((sem_step sem pc a).acquired = false ∧ (sem_step sem pc a).released = true ∧
      (sem_step sem pc a).sem.count = wrapInt32 (sem.count + 1)) := by
  cases pc <;> cases a <;> simp only [sem_step] <;> (try split_ifs) <;> simp_all

theorem semInv_step (c : Int) (s : SemSys) (e : Nat × SemAction) (h : SemInv c s) :
    SemInv c (s.step e) := by
  unfold SemInv at h ⊢
  simp only [SemSys.step, INT_MAX] at h ⊢
  rcases sem_step_cases s.sem (s.pcs e.1) e.2 with ⟨h1, h2, h3⟩ | ⟨h2, h3, h4, h1⟩ | ⟨h2, h3, h1⟩ <;>
    rw [h1, h2, h3] <;> (try simp only [wrapInt32]) <;> intro hb <;>
    simp only [Bool.false_eq_true, if_false, if_true, add_zero, Nat.cast_add, Nat.cast_one,
      Nat.cast_zero] at hb ⊢ <;>
    omega

theorem semInv_run (c : Int) (es : List (Nat × SemAction)) (s : SemSys) (h : SemInv c s) :
    SemInv c (s.run es) := by
  induction es generalizing s with
  | nil => simpa [SemSys.run] using h
  | cons e es ih => exact ih (s.step e) (semInv_step c s e h)

/-! ### Timer -/

theorem wrapInt32_succ (w : Int) (hmin : INT_MIN ≤ w) (hmax : w ≤ INT_MAX) :
    wrapInt32 (w + 1) = if w = INT_MAX then INT_MIN else w + 1 := by
  simp only [INT_MIN, INT_MAX, wrapInt32] at *
  split_ifs <;> omega

theorem timer_set_oneshot_self (s : TimerState) (ns : Nat) (res : Int) (handle : Nat)
    (harmed : s.timer.armed = true) :
    timer_set_oneshot s s.timer.thread ns res handle =
      .ok (0, { timer := { s.timer with
                  next_delay_ns := if s.timer.next_delay_ns = 0 then ns
                                   else min s.timer.next_delay_ns ns },
                log := s.log ++ if s.timer.next_delay_ns ≠ 0 ∧ ¬ ns < s.timer.next_delay_ns
                                then [] else [.set_next_delay ns] }) := by
  obtain ⟨⟨fn, d, nd, th, w, a⟩, log⟩ := s
  simp only at harmed
  subst harmed
  by_cases h0 : nd = 0
  · subst h0
    simp [timer_set_oneshot, TimerState.set_next_delay]
  · by_cases hlt : ns < nd
    · simp [timer_set_oneshot, TimerState.set_next_delay, h0, hlt, Nat.min_eq_right hlt.le]
    · simp [timer_set_oneshot, h0, hlt, Nat.min_eq_left (Nat.le_of_not_lt hlt)]

theorem callbackFrame_request (t : sgxlkl_timer) (n : Nat) (s : TimerState) (ns : Nat)
    (h : CallbackFrame t n s) :
    CallbackFrame t n
      (match timer_set_oneshot s t.thread ns 0 0 with
       | .ok r => r.2
       | .error _ => s) := by
  obtain ⟨h1, h2, h3, h4, h5, h6⟩ := h
  rw [← h3, timer_set_oneshot_self s ns 0 0 h5]
  refine ⟨h1, h2, h3, h4, h5, ?_⟩
  simp only [callbacks] at h6 ⊢
  split_ifs <;> simp [h6]

theorem callbackFrame_requests (t : sgxlkl_timer) (n : Nat) (requests : List Nat)
    (s : TimerState) (h : CallbackFrame t n s) :
    CallbackFrame t n
      (requests.foldl
        (fun st ns =>
          match timer_set_oneshot st t.thread ns 0 0 with
          | .ok r => r.2
          | .error _ => st) s) := by
  induction requests generalizing s with
  | nil => exact h
  | cons ns rest ih => exact ih _ (callbackFrame_request t n s ns h)

theorem run_callback_frame (s : TimerState) (requests : List Nat)
    (harmed : s.timer.armed = true) :
    CallbackFrame s.timer (callbacks s.log + 1) (run_callback s.timer.thread s requests) := by
  unfold run_callback
  apply callbackFrame_requests
  refine ⟨rfl, rfl, rfl, rfl, harmed, ?_⟩
  simp [callbacks, TimerState.emit]

theorem worker_sleep_timer (s : TimerState) (env : WorkerEnv) :
    (worker_sleep s env).timer = env.others s.timer := rfl

theorem worker_sleep_callbacks (s : TimerState) (env : WorkerEnv) :
    callbacks (worker_sleep s env).log = callbacks s.log := by
  simp [worker_sleep, TimerState.emit, callbacks]

theorem worker_fire_timeout (s : TimerState) (env : WorkerEnv) (ht : env.did_timeout = true)
    (ha : s.timer.armed = true) :
    callbacks (worker_fire s.timer.thread s env).log = callbacks s.log + 1 ∧
    (worker_fire s.timer.thread s env).timer.armed = true ∧
    (worker_fire s.timer.thread s env).timer.next_delay_ns = 0 ∧
    (worker_fire s.timer.thread s env).timer.delay_ns =
      (if (run_callback s.timer.thread (s.set_next_delay 0) env.requests).timer.next_delay_ns = 0
       then s.timer.delay_ns
       else (run_callback s.timer.thread (s.set_next_delay 0) env.requests).timer.next_delay_ns) := by
  have hf := run_callback_frame (s.set_next_delay 0) env.requests ha
  have hlog : callbacks (s.set_next_delay 0).log = callbacks s.log := by
    simp [TimerState.set_next_delay, callbacks]
  have hthr : (s.set_next_delay 0).timer.thread = s.timer.thread := rfl
  rw [hthr, hlog] at hf
  obtain ⟨-, h2, -, -, h5, h6⟩ := hf
  unfold worker_fire
  simp only [ht, if_true]
  by_cases hp : (run_callback s.timer.thread (s.set_next_delay 0) env.requests).timer.next_delay_ns
      = 0
  · simp only [hp, ne_eq, not_true_eq_false, if_false, if_true]
    exact ⟨h6, h5, trivial, h2⟩
  · simp only [hp, ne_eq, not_false_eq_true, if_true, if_false]
    refine ⟨?_, h5, rfl, rfl⟩
    simpa [TimerState.set_next_delay, TimerState.set_delay, callbacks] using h6

theorem timer_set_oneshot_callbacks (s : TimerState) (self ns : Nat) (res : Int)
    (handle : Nat) :
    callbacks
      (match timer_set_oneshot s self ns res handle with
       | .ok r => r.2
       | .error _ => s).log = callbacks s.log := by
  unfold timer_set_oneshot
  simp only [TimerState.emit, TimerState.set_delay, TimerState.set_armed,
    TimerState.set_next_delay, TimerState.wake_incr]
  split_ifs <;> simp [callbacks]

theorem run_callback_callbacks (self : Nat) (s : TimerState) (requests : List Nat) :
    callbacks (run_callback self s requests).log = callbacks s.log + 1 := by
  have key : ∀ (reqs : List Nat) (st : TimerState),
      callbacks (reqs.foldl
        (fun st ns =>
          match timer_set_oneshot st self ns 0 0 with
          | .ok r => r.2
          | .error _ => st) st).log = callbacks st.log := by
    intro reqs
    induction reqs with
    | nil => intro st; rfl
    | cons ns rest ih =>
      intro st
      rw [List.foldl_cons, ih, timer_set_oneshot_callbacks]
  unfold run_callback
  rw [key]
  simp [callbacks, TimerState.emit]

theorem worker_fire_callbacks (self : Nat) (s : TimerState) (env : WorkerEnv) :
    callbacks (worker_fire self s env).log =
      callbacks s.log + if env.did_timeout = true then 1 else 0 := by
  unfold worker_fire
  by_cases ht : env.did_timeout = true
  · simp only [ht, if_true]
    have h := run_callback_callbacks self (s.set_next_delay 0) env.requests
    have h0 : callbacks (s.set_next_delay 0).log = callbacks s.log := by
      simp [TimerState.set_next_delay, callbacks]
    rw [h0] at h
    split_ifs
    · simpa [TimerState.set_next_delay, TimerState.set_delay, callbacks] using h
    · exact h
  · simp [ht]

/-! ### The shared timer -/

theorem wrapInt32_wrap_succ (n : Int) : wrapInt32 (wrapInt32 n + 1) = wrapInt32 (n + 1) := by
  unfold wrapInt32; omega

theorem wrapInt32_range (n : Int) : INT_MIN ≤ wrapInt32 n ∧ wrapInt32 n ≤ INT_MAX := by
  unfold wrapInt32 INT_MIN INT_MAX; omega

theorem wrapInt32_ne_of_lt (n m : Nat) (h0 : n < m) (h1 : m - n < 4294967296) :
    wrapInt32 (m : Int) ≠ wrapInt32 (n : Int) := by
  unfold wrapInt32; omega

theorem set_oneshot_self_keeps (s : TimerState) (ns : Nat) (res : Int) (handle : Nat) :
    (match timer_set_oneshot s s.timer.thread ns res handle with
     | .ok r => r.2
     | .error _ => s).timer.wake = s.timer.wake ∧
    (match timer_set_oneshot s s.timer.thread ns res handle with
     | .ok r => r.2
     | .error _ => s).timer.thread = s.timer.thread := by
  unfold timer_set_oneshot
  simp only [if_true, TimerState.set_next_delay]
  split_ifs <;> simp

theorem rearmed_by_wake (t ns : Nat) (timer : sgxlkl_timer) (h : timer.thread = t) :
    (rearmed_by t ns timer).wake = timer.wake := by
  subst h
  have := (set_oneshot_self_keeps { timer := timer, log := [] } ns 0 0).1
  unfold rearmed_by
  split <;> simp_all

theorem run_callback_self_keeps (requests : List Nat) (s : TimerState) :
    (requests.foldl
      (fun st ns =>
        match timer_set_oneshot st s.timer.thread ns 0 0 with
        | .ok r => r.2
        | .error _ => st) s).timer.wake = s.timer.wake ∧
    (requests.foldl
      (fun st ns =>
        match timer_set_oneshot st s.timer.thread ns 0 0 with
        | .ok r => r.2
        | .error _ => st) s).timer.thread = s.timer.thread := by
  induction requests generalizing s with
  | nil => exact ⟨rfl, rfl⟩
  | cons ns rest ih =>
    obtain ⟨h1, h2⟩ := set_oneshot_self_keeps s ns 0 0
    rw [List.foldl_cons]
    have := ih (match timer_set_oneshot s s.timer.thread ns 0 0 with
      | .ok r => r.2
      | .error _ => s)
    rw [h2] at this
    rw [this.1, this.2, h1]
    exact ⟨rfl, rfl⟩

theorem fired_wake (t : Nat) (timer : sgxlkl_timer) (requests : List Nat)
    (h : timer.thread = t ∨ requests = []) : (fired t timer requests).wake = timer.wake := by
  unfold fired worker_fire
  simp only [if_true]
  have key : (run_callback t (({ timer := timer, log := [] } : TimerState).set_next_delay 0)
      requests).timer.wake = timer.wake := by
    rcases h with h | h
    · subst h
      exact (run_callback_self_keeps requests
        ((({ timer := timer, log := [] } : TimerState).set_next_delay 0).emit .callback)).1
    · subst h
      rfl
  split_ifs
  · simpa [TimerState.set_next_delay, TimerState.set_delay] using key
  · exact key

set_option maxHeartbeats 1600000 in
theorem timer_thread_step_ok (s : TimerSys) (t : Nat) (a : TAct)
    (hh : (s.thr t).holds = true ↔ s.holder = some t)
    (hw : s.timer.wake = wrapInt32 s.incrs)
    (hs : (s.thr t).snapshot_ok s.timer.wake s.incrs) :
    ((timer_thread_step s t a).pc.holds = true ↔ (timer_thread_step s t a).holder = some t) ∧
    ((timer_thread_step s t a).holder = s.holder ∨
      (s.holder = none ∧ (timer_thread_step s t a).holder = some t) ∨
      (s.holder = some t ∧ (timer_thread_step s t a).holder = none)) ∧
    ((timer_thread_step s t a).other = none ∨
      ∃ h, (s.thr h).holds = false ∧
        ((timer_thread_step s t a).other = some (h, .cb_relock false) ∨
          (timer_thread_step s t a).other = some (h, .cb_lock))) ∧
    (timer_thread_step s t a).pc.snapshot_ok (timer_thread_step s t a).timer.wake
      (timer_thread_step s t a).incrs ∧
    (((timer_thread_step s t a).timer.wake = s.timer.wake ∧
        (timer_thread_step s t a).incrs = s.incrs) ∨
      (s.holder = some t ∧ (timer_thread_step s t a).incrs = s.incrs + 1 ∧
        (timer_thread_step s t a).timer.wake = wrapInt32 (s.timer.wake + 1))) := by
  by_cases hf : s.freed = true
  · unfold timer_thread_step
    rw [if_pos hf]
    simp [TimerSys.goto, hh, hs]
  · unfold timer_thread_step
    rw [if_neg hf]
    cases a <;> cases hp : s.thr t <;>
      simp only [hp, TPc.holds, TPc.snapshot_ok] at hh hs <;>
      simp only [TimerSys.goto, TimerSys.acquire, TimerSys.release,
        TimerSys.increment, TimerSys.wake_one] <;>
      (try split_ifs) <;>
      simp_all [TPc.holds, TPc.snapshot_ok, rearmed_by_wake, fired_wake]
theorem snapshot_ok_incr (pc : TPc) (w : Int) (n : Nat) (hnh : pc.holds = false)
    (h : pc.snapshot_ok w n) (w' : Int) : pc.snapshot_ok w' (n + 1) := by
  cases pc <;> simp_all [TPc.snapshot_ok, TPc.holds]
  omega

theorem timerInv_init (fn : Nat) : TimerInv (TimerSys.init fn) := by
  refine ⟨?_, ?_, ?_⟩
  · intro i; simp [TimerSys.init, TPc.holds]
  · simp [TimerSys.init, timer_alloc, wrapInt32]
  · intro i; simp [TimerSys.init, TPc.snapshot_ok]

theorem timerSys_step_thr_self (s : TimerSys) (t : Nat) (a : TAct) :
    (s.step (t, a)).thr t = (timer_thread_step s t a).pc := by
  simp [TimerSys.step]

theorem timerSys_step_thr_other (s : TimerSys) (t : Nat) (a : TAct) (i : Nat) (hi : i ≠ t)
    (hother : (timer_thread_step s t a).other = none ∨
      ∃ h, (s.thr h).holds = false ∧
        ((timer_thread_step s t a).other = some (h, .cb_relock false) ∨
          (timer_thread_step s t a).other = some (h, .cb_lock))) :
    (s.step (t, a)).thr i = s.thr i ∨
    ((s.thr i).holds = false ∧
      ((s.step (t, a)).thr i = .cb_relock false ∨ (s.step (t, a)).thr i = .cb_lock)) := by
  simp only [TimerSys.step, Function.update_noteq hi]
  rcases hother with h0 | ⟨h, hh, h1 | h1⟩
  · rw [h0]; exact Or.inl rfl
  · rw [h1]
    by_cases e : i = h
    · subst e; right; simp [hh]
    · left; simp [Function.update_noteq e]
  · rw [h1]
    by_cases e : i = h
    · subst e; right; simp [hh]
    · left; simp [Function.update_noteq e]

theorem timerInv_step (s : TimerSys) (e : Nat × TAct) (h : TimerInv s) :
    TimerInv (s.step e) := by
  obtain ⟨t, a⟩ := e
  obtain ⟨hI1, hI2, hI3⟩ := h
  obtain ⟨hA, hB, hC, hE, hF⟩ := timer_thread_step_ok s t a (hI1 t) hI2 (hI3 t)
  have hholder : (s.step (t, a)).holder = (timer_thread_step s t a).holder := rfl
  have hwake : (s.step (t, a)).timer.wake = (timer_thread_step s t a).timer.wake := rfl
  have hincrs : (s.step (t, a)).incrs = (timer_thread_step s t a).incrs := rfl
  refine ⟨?_, ?_, ?_⟩
  · intro i
    by_cases hi : i = t
    · subst hi
      rw [timerSys_step_thr_self, hholder]
      exact hA
    · have h1 := hI1 i
      have hne : ¬ (some t = some i) := fun h => hi (Option.some.inj h).symm
      rw [hholder]
      rcases timerSys_step_thr_other s t a i hi hC with h2 | ⟨h2, h3 | h3⟩
      · rw [h2]
        rcases hB with hB | ⟨hB, hB'⟩ | ⟨hB, hB'⟩
        · rw [hB]; exact h1
        · rw [hB'] ; rw [hB] at h1; simp_all
        · rw [hB'] ; rw [hB] at h1; simp_all
      · rw [h3]
        have h4 : ¬ s.holder = some i := fun h => by simp [h1.mpr h] at h2
        rcases hB with hB | ⟨hB, hB'⟩ | ⟨hB, hB'⟩
        · rw [hB]; simpa [TPc.holds] using h4
        · rw [hB']; simpa [TPc.holds] using hne
        · rw [hB']; simp [TPc.holds]
      · rw [h3]
        have h4 : ¬ s.holder = some i := fun h => by simp [h1.mpr h] at h2
        rcases hB with hB | ⟨hB, hB'⟩ | ⟨hB, hB'⟩
        · rw [hB]; simpa [TPc.holds] using h4
        · rw [hB']; simpa [TPc.holds] using hne
        · rw [hB']; simp [TPc.holds]
  · rw [hwake, hincrs]
    rcases hF with ⟨h1, h2⟩ | ⟨-, h2, h1⟩
    · rw [h1, h2]; exact hI2
    · rw [h1, h2, hI2]; push_cast; exact wrapInt32_wrap_succ _
  · intro i
    by_cases hi : i = t
    · subst hi
      rw [timerSys_step_thr_self, hwake, hincrs]
      exact hE
    · rw [hwake, hincrs]
      rcases timerSys_step_thr_other s t a i hi hC with h2 | ⟨-, h3 | h3⟩
      · rw [h2]
        have h3 := hI3 i
        rcases hF with ⟨h4, h5⟩ | ⟨h6, h5, h4⟩
        · rw [h4, h5]; exact h3
        · have hnh : (s.thr i).holds = false := by
            have := hI1 i
            rw [h6] at this
            cases hb : (s.thr i).holds
            · rfl
            · exact absurd (Option.some.inj (this.mp hb)) (fun h => hi h.symm)
          rw [h5]
          exact snapshot_ok_incr _ _ _ hnh h3 _
      · rw [h3]; simp [TPc.snapshot_ok]
      · rw [h3]; simp [TPc.snapshot_ok]

theorem timerInv_run (es : List (Nat × TAct)) (s : TimerSys) (h : TimerInv s) :
    TimerInv (s.run es) := by
  induction es generalizing s with
  | nil => simpa [TimerSys.run] using h
  | cons e es ih => exact ih (s.step e) (timerInv_step s e h)

theorem timer_thread_step_unlock_keeps (s : TimerSys) (t : Nat) (a : TAct) (v : Int) (n : Nat)
    (hp : s.thr t = .cb_unlock v n) :
    (timer_thread_step s t a).timer.wake = s.timer.wake := by
  unfold timer_thread_step
  by_cases hf : s.freed = true
  · rw [if_pos hf]; rfl
  · rw [if_neg hf]
    cases a <;> simp [hp, TimerSys.goto, TimerSys.release]

theorem timer_thread_step_compare (s : TimerSys) (t o : Nat) (r : List Nat) (v : Int) (n : Nat)
    (hp : s.thr t = .cb_wait v n) (hf : s.freed = false) (hne : s.timer.wake ≠ v) :
    (timer_thread_step s t (.run o r)).pc = .cb_relock false := by
  unfold timer_thread_step
  simp [hf, hp, futex_sleeps, hne, TimerSys.goto]

/-! ## Claims -/

/-- C1. Mutual exclusion of the non-recursive mutex: in every state reachable
from a freshly allocated non-recursive mutex by any interleaving of the atomic
steps of `mutex_lock` and `mutex_unlock` of any number of threads (weak
compare-and-swap that may fail spuriously, futex wait that may return at any
time, unlock called only by a thread inside the critical section), two distinct
threads are never both inside the critical section. -/
theorem mutex_mutual_exclusion (es : List (Nat × Action)) (i j : Nat) (hij : i ≠ j) :
    ¬ (inside ((MutexSys.init 0).run es) i ∧ inside ((MutexSys.init 0).run es) j) := by
  rintro ⟨hi, hj⟩
  obtain ⟨_, _, huniq, _⟩ := mutexInv_run es (MutexSys.init 0) mutexInv_init
  exact hij (huniq i j (Or.inl hi) (Or.inl hj))

/-- Witness of C1: with three competing threads, thread 1 is inside the
critical section and thread 2, which is contending, is not. -/
theorem mutex_mutual_exclusion_witness :
    (1 : Nat) ≠ 2 ∧ inside ((MutexSys.init 0).run contended_schedule) 1 ∧
    ¬ (inside ((MutexSys.init 0).run contended_schedule) 1 ∧
        inside ((MutexSys.init 0).run contended_schedule) 2) :=
  ⟨by decide, by decide, mutex_mutual_exclusion contended_schedule 1 2 (by decide)⟩

/-- C4 (amended). Recursive mutex balance, for `1 ≤ N ≤ 2^30` (the recursion
depth is a signed 31-bit bit-field holding `N - 1`): a thread `t` that calls
`mutex_lock` `N` times on a fresh recursive mutex, no other thread acting,
returns from each call without any futex call; after `k < N` of the following
`mutex_unlock` calls the flag is still locked, the owner is `t` and the lock
attempt of any other thread ends in the futex wait; after the `N`-th unlock the
flag is `unlocked`, the owner is cleared and the recursion depth is 0. -/
theorem recursive_lock_balance (t : Nat) (cf : Nat → Bool) (N : Nat) (ht : t ≠ 0)
    (hN : 1 ≤ N) (hmax : N ≤ 1073741824) :
    (∀ n, n ≤ N →
      (lock_n t cf n (Solo.start (mutex_alloc 1))).calls = [] ∧
      (lock_n t cf n (Solo.start (mutex_alloc 1))).th = { pc := .idle, held := n }) ∧
    (∀ k, k < N →
      (unlock_n t k (lock_n t cf N (Solo.start (mutex_alloc 1)))).mutex.flag ≠ unlocked ∧
      (unlock_n t k (lock_n t cf N (Solo.start (mutex_alloc 1)))).mutex.owner = t ∧
      (unlock_n t k (lock_n t cf N (Solo.start (mutex_alloc 1)))).th.pc = .idle ∧
      ∀ u cf', u ≠ t →
        (mutex_lock
          (Solo.start (unlock_n t k (lock_n t cf N (Solo.start (mutex_alloc 1)))).mutex)
          u cf').th.pc = .lock_wait) ∧
    (unlock_n t N (lock_n t cf N (Solo.start (mutex_alloc 1)))).mutex.flag = unlocked ∧
    (unlock_n t N (lock_n t cf N (Solo.start (mutex_alloc 1)))).mutex.owner = 0 ∧
    (unlock_n t N (lock_n t cf N (Solo.start (mutex_alloc 1)))).mutex.recursion_count = 0 ∧
    (unlock_n t N (lock_n t cf N (Solo.start (mutex_alloc 1)))).th.pc = .idle := by
  obtain ⟨n, rfl⟩ : ∃ n, N = n + 1 := ⟨N - 1, by omega⟩
  have hf : (if cf 0 = true then 2 else 1) = 1 ∨ (if cf 0 = true then 2 else 1) = 2 := by
    split <;> simp
  refine ⟨?_, ?_, ?_⟩
  · intro m hm
    cases m with
    | zero => simp [lock_n, Solo.start]
    | succ m => rw [lock_n_state t cf ht m (by omega)]; simp
  · intro k hk
    rw [lock_n_state t cf ht n hmax, unlock_n_state _ t n [] (by omega) k (by omega)]
    refine ⟨?_, rfl, rfl, ?_⟩
    · simp only [unlocked]; rcases hf with h | h <;> rw [h] <;> decide
    · intro u cf' hu
      exact mutex_lock_other _ t u _ cf' hf hu
  · have e : n + 1 - n = 0 + 1 := by omega
    rw [unlock_n, lock_n_state t cf ht n hmax, unlock_n_state _ t n [] (by omega) n le_rfl, e,
      mutex_unlock_outer _ t 0 _ [] true (Or.inr (by omega)) hf]
    simp [unlocked]

/-- Witness of C4 (amended): thread 7 locks three times, the first
compare-and-swap failing spuriously. -/
theorem recursive_lock_balance_witness :
    (7 : Nat) ≠ 0 ∧ 1 ≤ 3 ∧ 3 ≤ 1073741824 ∧
    (unlock_n 7 2 (lock_n 7 (fun _ => true) 3 (Solo.start (mutex_alloc 1)))).mutex.flag
      ≠ unlocked ∧
    (unlock_n 7 3 (lock_n 7 (fun _ => true) 3 (Solo.start (mutex_alloc 1)))).mutex.flag
      = unlocked :=
  ⟨by decide, by decide, by decide,
    ((recursive_lock_balance 7 (fun _ => true) 3 (by decide) (by decide) (by decide)).2.1 2
      (by decide)).1,
    (recursive_lock_balance 7 (fun _ => true) 3 (by decide) (by decide) (by decide)).2.2.1⟩

/-- C4 as stated fails for `N = 2^30 + 1`: the recursion depth wraps to
`-2^30`, so the first of the `N` unlocks (`k = 1 < N`) already releases the
mutex, clears the owner, and the lock attempt of another thread succeeds. -/
theorem recursive_lock_depth_overflow :
    (1 : Nat) < 1073741825 ∧
    (lock_n 1 (fun _ => false) 1073741825
      (Solo.start (mutex_alloc 1))).mutex.recursion_count = -1073741824 ∧
    (unlock_n 1 1 (lock_n 1 (fun _ => false) 1073741825
      (Solo.start (mutex_alloc 1)))).mutex.flag = unlocked ∧
    (unlock_n 1 1 (lock_n 1 (fun _ => false) 1073741825
      (Solo.start (mutex_alloc 1)))).mutex.owner = 0 ∧
    (mutex_lock (Solo.start (unlock_n 1 1 (lock_n 1 (fun _ => false) 1073741825
      (Solo.start (mutex_alloc 1)))).mutex) 2 false).th = { pc := .idle, held := 1 } := by
  have hw : wrapInt31 (((1073741823 : Nat) : Int) + 1) = -1073741824 := by decide
  have e : lock_n 1 (fun _ => false) 1073741825 (Solo.start (mutex_alloc 1)) =
      { mutex := { flag := 1, owner := 1, is_recursive := true,
                   recursion_count := -1073741824 },
        th := { pc := .idle, held := 1073741824 + 1 }, calls := [] } := by
    rw [show (1073741825 : Nat) = 1073741823 + 1 + 1 from rfl, lock_n,
      lock_n_state 1 _ (by decide) 1073741823 (by decide),
      mutex_lock_nested _ _ _ _ _ _ (by simp), hw]
    simp
  have e2 : unlock_n 1 1 (lock_n 1 (fun _ => false) 1073741825 (Solo.start (mutex_alloc 1))) =
      { mutex := { flag := 0, owner := 0, is_recursive := true,
                   recursion_count := -1073741824 },
        th := { pc := .idle, held := 1073741824 }, calls := [] } := by
    rw [e, unlock_n, unlock_n,
      mutex_unlock_outer 1 1 1073741824 _ [] true (Or.inr (by decide)) (Or.inl rfl)]
    simp
  refine ⟨by decide, ?_, ?_, ?_, ?_⟩
  · rw [e]
  · rw [e2]; rfl
  · rw [e2]
  · rw [e2]
    simp [mutex_lock, Solo.finish, Solo.act, Solo.start, thread_step, unlocked,
      locked_no_waiters]

/-- C9. Mutex unlock state transition: for a non-recursive mutex, or a recursive
one with recursion depth 0, `mutex_unlock` called by the holder with no other
thread acting returns with the flag `unlocked`; from `locked_no_waiters` it
issues no futex call, from `locked_waiters` exactly one wake with count
`INT_MAX`. -/
theorem mutex_unlock_transition (m : lkl_mutex) (t h : Nat)
    (hrec : m.is_recursive = false ∨ m.recursion_count = 0)
    (hflag : m.flag = locked_no_waiters ∨ m.flag = locked_waiters) :
    (mutex_unlock { mutex := m, th := { pc := .idle, held := h + 1 }, calls := [] } t).mutex.flag
      = unlocked ∧
    (mutex_unlock { mutex := m, th := { pc := .idle, held := h + 1 }, calls := [] } t).th.pc
      = .idle ∧
    (mutex_unlock { mutex := m, th := { pc := .idle, held := h + 1 }, calls := [] } t).calls
      = if m.flag = locked_waiters then [FutexCall.wake INT_MAX] else [] := by
  obtain ⟨f, o, r, c⟩ := m
  simp only [locked_no_waiters, locked_waiters] at hflag ⊢
  simp only at hrec
  have hc : r = false ∨ ¬ 0 < c := by
    rcases hrec with h | h
    · exact Or.inl h
    · exact Or.inr (by omega)
  by_cases ho : o = t
  · subst ho
    rw [mutex_unlock_outer f o h c [] r hc hflag]
    simp [unlocked]
  · have hc' : ¬ 0 < c ∨ r = false := hc.symm
    rcases hflag with hf | hf <;> subst hf <;> cases r <;>
      simp_all [mutex_unlock, Solo.finish, Solo.act, thread_step, locked_no_waiters,
        wrapUInt32_zero, wrapUInt32_one, unlocked]

/-- Witness of C9: a non-recursive mutex in state `locked_waiters`. -/
theorem mutex_unlock_transition_witness :
    (mutex_unlock { mutex := { flag := 2, owner := 0, is_recursive := false,
                               recursion_count := 0 },
                    th := { pc := .idle, held := 1 }, calls := [] } 5).mutex.flag = unlocked ∧
    (mutex_unlock { mutex := { flag := 2, owner := 0, is_recursive := false,
                               recursion_count := 0 },
                    th := { pc := .idle, held := 1 }, calls := [] } 5).calls
      = [FutexCall.wake INT_MAX] := by
  have h := mutex_unlock_transition
    { flag := 2, owner := 0, is_recursive := false, recursion_count := 0 } 5 0
    (Or.inl rfl) (Or.inr rfl)
  exact ⟨h.1, h.2.2⟩

/-- C2 as stated fails on a semaphore created with count `INT_MAX`: a single
`sem_up` wraps the count to `INT_MIN`, which is negative and breaks the
balance `completed acquires + count = C + increments`. -/
theorem sem_count_overflow :
    (0 : Int) ≤ 2147483647 ∧
    ((SemSys.init 2147483647).run [(0, .call_up), (0, .run false)]).sem.count = -2147483648 ∧
    ((SemSys.init 2147483647).run [(0, .call_up), (0, .run false)]).ups = 1 ∧
    ((SemSys.init 2147483647).run [(0, .call_up), (0, .run false)]).downs = 0 ∧
    ¬ (0 ≤ ((SemSys.init 2147483647).run [(0, .call_up), (0, .run false)]).sem.count) := by
  decide

/-- C2 (amended). Semaphore unit conservation: for a semaphore created with
count `C ≥ 0`, in every state reachable by any interleaving of the atomic steps
of `sem_up` and `sem_down` in which `C` plus the number of increments performed
does not exceed `INT_MAX`, the count is non-negative, completed acquires plus
count equal `C` plus the increments, and the completed acquires do not exceed
`C` plus the increments. -/
theorem sem_conservation (c : Int) (es : List (Nat × SemAction)) (hc : 0 ≤ c)
    (hb : c + ((SemSys.init c).run es).ups ≤ INT_MAX) :
    0 ≤ ((SemSys.init c).run es).sem.count ∧
    (((SemSys.init c).run es).downs : Int) + ((SemSys.init c).run es).sem.count
      = c + ((SemSys.init c).run es).ups ∧
    (((SemSys.init c).run es).downs : Int) ≤ c + ((SemSys.init c).run es).ups := by
  have h := semInv_run c es (SemSys.init c) (semInv_init c hc) hb
  exact ⟨h.1, h.2, by omega⟩

/-- Witness of C2 (amended): on a semaphore created with count 1, after one
release both acquires have completed and the count is 0. -/
theorem sem_conservation_witness :
    (0 : Int) ≤ 1 ∧ ((SemSys.init 1).run sem_schedule).downs = 2 ∧
    ((SemSys.init 1).run sem_schedule).ups = 1 ∧
    0 ≤ ((SemSys.init 1).run sem_schedule).sem.count ∧
    (((SemSys.init 1).run sem_schedule).downs : Int) + ((SemSys.init 1).run sem_schedule).sem.count
      = 1 + ((SemSys.init 1).run sem_schedule).ups :=
  ⟨by decide, by decide, by decide,
    (sem_conservation 1 sem_schedule (by decide) (by decide)).1,
    (sem_conservation 1 sem_schedule (by decide) (by decide)).2.1⟩

/-- C8 as stated fails at count `INT_MAX`: `sem_up` does not increase the count
by 1 but wraps it to `INT_MIN`. -/
theorem sem_up_overflow :
    (sem_up { count := 2147483647 }).1.count = -2147483648 ∧
    (sem_up { count := 2147483647 }).1.count ≠ 2147483647 + 1 := by
  decide

/-- C8 (amended). For every semaphore state (the count being an `int`),
`sem_up` increases the count by exactly 1, except at `INT_MAX` where the count
wraps to `INT_MIN`; it issues one wake with count `INT_MAX` if the count before
the increment was exactly 0, and no futex call otherwise. -/
theorem sem_up_wakes_after_zero (sem : lkl_sem) (hmin : INT_MIN ≤ sem.count)
    (hmax : sem.count ≤ INT_MAX) :
    (sem_up sem).1.count = (if sem.count = INT_MAX then INT_MIN else sem.count + 1) ∧
    (sem_up sem).2 = (if sem.count = 0 then [FutexCall.wake INT_MAX] else []) := by
  obtain ⟨c⟩ := sem
  simp only [INT_MIN, INT_MAX] at hmin hmax ⊢
  by_cases h0 : c = 0
  · subst h0; simp [sem_up, sem_step, wrapInt32, INT_MAX]
  · simp only [sem_up, sem_step, h0, if_false, wrapInt32]
    refine ⟨?_, trivial⟩
    split_ifs <;> omega

/-- Witness of C8 (amended): a release on an exhausted semaphore. -/
theorem sem_up_wakes_after_zero_witness :
    INT_MIN ≤ (0 : Int) ∧ (0 : Int) ≤ INT_MAX ∧
    (sem_up { count := 0 }).1.count = 1 ∧
    (sem_up { count := 0 }).2 = [FutexCall.wake INT_MAX] := by
  have h := sem_up_wakes_after_zero { count := 0 } (by decide) (by decide)
  exact ⟨by decide, by decide, by simpa [INT_MAX] using h.1, by simpa using h.2⟩

/-- C5 as stated fails for a caller that is not the worker: on the torn-down
timer (armed flag cleared by `timer_free`), `timer_set_oneshot` called by
thread 5 returns 0, arms the timer again, overwrites the delay and creates a
new worker. -/
theorem rearm_torn_down_by_other_thread :
    (timer_free (some armed_timer) 0).map (fun s => s.timer) = .ok torn_down_timer.timer ∧
    timer_set_oneshot torn_down_timer 5 100 0 11 =
      .ok (0, { timer := { callback_fn := 1, delay_ns := 100, next_delay_ns := 0, thread := 11,
                           wake := 1, armed := true },
                log := [.mutex_lock, .set_armed true, .set_delay 100, .set_next_delay 0,
                        .lthread_create, .mutex_unlock] }) :=
  ⟨rfl, rfl⟩

/-- C5 (amended). Rearming a torn-down timer is reported to the worker only:
`timer_set_oneshot` called by the timer's own worker thread on a timer whose
armed flag is cleared returns -1, changes no field and performs no operation;
called on an armed timer, or by a thread other than the worker with the worker
creation succeeding, it returns 0. -/
theorem rearm_torn_down (s : TimerState) (self ns : Nat) (res : Int) (handle : Nat)
    (hres : res = 0) :
    (s.timer.thread = self → s.timer.armed = false →
      timer_set_oneshot s self ns res handle = .ok (-1, s)) ∧
    (s.timer.armed = true ∨ s.timer.thread ≠ self →
      ∃ s', timer_set_oneshot s self ns res handle = .ok (0, s')) := by
  subst hres
  obtain ⟨⟨fn, d, nd, th, w, a⟩, log⟩ := s
  refine ⟨?_, ?_⟩
  · intro h1 h2
    simp only at h1 h2
    simp [timer_set_oneshot, h1, h2]
  · intro h
    simp only at h
    unfold timer_set_oneshot
    simp only [TimerState.emit]
    split_ifs <;> first | exact ⟨_, rfl⟩ | (exfalso; simp_all)

/-- Witness of C5 (amended): the worker, thread 9, rearms the torn-down timer. -/
theorem rearm_torn_down_witness :
    ((0 : Int) = 0) ∧ timer_set_oneshot torn_down_timer 9 100 0 11 = .ok (-1, torn_down_timer) :=
  ⟨rfl, (rearm_torn_down torn_down_timer 9 100 0 11 rfl).1 rfl rfl⟩

/-- C6. Re-entrant rearm is earliest-wins: `timer_set_oneshot(timer, ns)` called
by the timer's own worker thread on an armed timer returns 0; the pending delay
becomes `ns` if it was 0 and the minimum of itself and `ns` otherwise; delay,
counter, armed flag and worker thread are unchanged; the only operation
performed, if any, is the store of the pending delay, so the mutex is neither
locked nor unlocked. -/
theorem rearm_by_worker (s : TimerState) (self ns : Nat) (res : Int) (handle : Nat)
    (hself : s.timer.thread = self) (harmed : s.timer.armed = true) :
    ∃ ops, timer_set_oneshot s self ns res handle =
        .ok (0, { timer := { s.timer with
                    next_delay_ns := if s.timer.next_delay_ns = 0 then ns
                                     else min s.timer.next_delay_ns ns },
                  log := s.log ++ ops }) ∧
      (ops = [] ∨ ops = [.set_next_delay ns]) ∧
      TimerOp.mutex_lock ∉ ops ∧ TimerOp.mutex_unlock ∉ ops := by
  obtain ⟨⟨fn, d, nd, th, w, a⟩, log⟩ := s
  simp only at hself harmed
  subst hself harmed
  by_cases h0 : nd = 0
  · subst h0
    exact ⟨[.set_next_delay ns], by simp [timer_set_oneshot, TimerState.set_next_delay],
      Or.inr rfl, by simp, by simp⟩
  · by_cases hlt : ns < nd
    · refine ⟨[.set_next_delay ns], ?_, Or.inr rfl, by simp, by simp⟩
      simp [timer_set_oneshot, TimerState.set_next_delay, h0, hlt, Nat.min_eq_right hlt.le]
    · refine ⟨[], ?_, Or.inl rfl, by simp, by simp⟩
      simp [timer_set_oneshot, h0, hlt, Nat.min_eq_left (Nat.le_of_not_lt hlt)]

/-- Witness of C6: the worker asks for 30 while 20 is pending; 20 stays. -/
theorem rearm_by_worker_witness :
    timer_set_oneshot { armed_timer with timer := { armed_timer.timer with next_delay_ns := 20 } }
      9 30 0 0 =
      .ok (0, { armed_timer with timer := { armed_timer.timer with next_delay_ns := 20 } }) := by
  obtain ⟨ops, h, -, -, -⟩ := rearm_by_worker
    { armed_timer with timer := { armed_timer.timer with next_delay_ns := 20 } } 9 30 0 0 rfl rfl
  rfl

/-- C7 as stated fails when the counter is `INT_MAX`: the external rearm of an
armed timer does not increase it by 1 but wraps it to `INT_MIN`. -/
theorem external_rearm_overflow :
    saturated_timer.timer.thread ≠ 5 ∧ saturated_timer.timer.armed = true ∧
    (timer_set_oneshot saturated_timer 5 100 0 0).map (fun r => r.2.timer.wake)
      = .ok (-2147483648) ∧
    (-2147483648 : Int) ≠ saturated_timer.timer.wake + 1 :=
  ⟨by decide, rfl, rfl, by decide⟩

/-- C7 (amended). External rearm: `timer_set_oneshot(timer, ns)` called by a
thread other than the timer's worker locks the timer mutex first and unlocks it
last, and returns 0.  If the timer was armed, the delay becomes `ns`, the
counter increases by exactly 1, or wraps to `INT_MIN` if it was `INT_MAX`, one
futex wake (count 1) is issued on the counter and no worker is created.  If it
was not armed and the worker creation succeeds, armed becomes true, the delay
becomes `ns`, the pending delay 0, the counter is unchanged and exactly one
worker is created, which becomes the timer's worker thread. -/
theorem external_rearm (s : TimerState) (self ns : Nat) (res : Int) (handle : Nat)
    (hne : s.timer.thread ≠ self) (hmin : INT_MIN ≤ s.timer.wake)
    (hmax : s.timer.wake ≤ INT_MAX) :
    (s.timer.armed = true →
      timer_set_oneshot s self ns res handle =
        .ok (0, { timer := { s.timer with
                    delay_ns := ns,
                    wake := if s.timer.wake = INT_MAX then INT_MIN else s.timer.wake + 1 },
                  log := s.log ++ [.mutex_lock, .set_delay ns, .wake_incr, .futex_wake 1,
                                   .mutex_unlock] })) ∧
    (s.timer.armed = false → res = 0 →
      timer_set_oneshot s self ns res handle =
        .ok (0, { timer := { s.timer with
                    armed := true, delay_ns := ns, next_delay_ns := 0, thread := handle },
                  log := s.log ++ [.mutex_lock, .set_armed true, .set_delay ns,
                                   .set_next_delay 0, .lthread_create, .mutex_unlock] })) := by
  obtain ⟨⟨fn, d, nd, th, w, a⟩, log⟩ := s
  simp only at hne hmin hmax
  refine ⟨?_, ?_⟩
  · intro ha
    simp only at ha
    subst ha
    simp [timer_set_oneshot, hne, TimerState.emit, TimerState.set_delay, TimerState.wake_incr,
      wrapInt32_succ w hmin hmax]
  · intro ha hres
    simp only at ha
    subst ha hres
    simp [timer_set_oneshot, hne, TimerState.emit, TimerState.set_delay,
      TimerState.set_armed, TimerState.set_next_delay]

/-- Witness of C7 (amended): thread 5 rearms the armed timer of worker 9, and
arms a fresh timer. -/
theorem external_rearm_witness :
    armed_timer.timer.thread ≠ 5 ∧ INT_MIN ≤ armed_timer.timer.wake ∧
    armed_timer.timer.wake ≤ INT_MAX ∧
    timer_set_oneshot armed_timer 5 20 0 0 =
      .ok (0, { timer := { callback_fn := 1, delay_ns := 20, next_delay_ns := 0, thread := 9,
                           wake := 1, armed := true },
                log := [.mutex_lock, .set_delay 20, .wake_incr, .futex_wake 1,
                        .mutex_unlock] }) :=
  ⟨by decide, by decide, by decide,
    ((external_rearm armed_timer 5 20 0 0 (by decide) (by decide) (by decide)).1 rfl).trans rfl⟩

/-- C10 as stated fails when the counter is `INT_MAX`: the teardown of an armed
timer does not increase it by 1 but wraps it to `INT_MIN`. -/
theorem timer_teardown_overflow :
    saturated_timer.timer.armed = true ∧
    (timer_free (some saturated_timer) 0).map (fun r => r.timer.wake) = .ok (-2147483648) ∧
    (-2147483648 : Int) ≠ saturated_timer.timer.wake + 1 :=
  ⟨rfl, rfl, by decide⟩

/-- C10 (amended). Timer teardown: `timer_free` locks the timer mutex; if the
timer is armed it clears armed, increases the counter by exactly 1, or wraps it
to `INT_MIN` if it was `INT_MAX`, issues a wake on the counter, unlocks the
mutex and joins the worker thread, in that order, and releases the memory last
(after a warning if the join failed); if the timer is not armed it changes no
field, performs no increment, no wake and no join: it unlocks the mutex and
releases the memory. -/
theorem timer_teardown (s : TimerState) (join_res : Int) (hmin : INT_MIN ≤ s.timer.wake)
    (hmax : s.timer.wake ≤ INT_MAX) :
    (s.timer.armed = true →
      timer_free (some s) join_res =
        .ok { timer := { s.timer with
                armed := false,
                wake := if s.timer.wake = INT_MAX then INT_MIN else s.timer.wake + 1 },
              log := s.log ++ [.mutex_lock, .set_armed false, .wake_incr, .futex_wake 1,
                               .mutex_unlock, .lthread_join s.timer.thread] ++
                     (if join_res ≠ 0 then [.warn] else []) ++ [.oe_free] }) ∧
    (s.timer.armed = false →
      timer_free (some s) join_res =
        .ok { timer := s.timer, log := s.log ++ [.mutex_lock, .mutex_unlock, .oe_free] }) := by
  obtain ⟨⟨fn, d, nd, th, w, a⟩, log⟩ := s
  simp only at hmin hmax
  refine ⟨?_, ?_⟩
  · intro ha
    simp only at ha
    subst ha
    by_cases hj : join_res = 0
    · simp [timer_free, hj, TimerState.emit, TimerState.set_armed, TimerState.wake_incr,
        wrapInt32_succ w hmin hmax]
    · simp [timer_free, hj, TimerState.emit, TimerState.set_armed, TimerState.wake_incr,
        wrapInt32_succ w hmin hmax]
  · intro ha
    simp only at ha
    subst ha
    simp [timer_free, TimerState.emit]

/-- Witness of C10 (amended): teardown of an armed timer and of a timer that
was never armed. -/
theorem timer_teardown_witness :
    INT_MIN ≤ armed_timer.timer.wake ∧ armed_timer.timer.wake ≤ INT_MAX ∧
    timer_free (some armed_timer) 0 =
      .ok { timer := torn_down_timer.timer,
            log := [.mutex_lock, .set_armed false, .wake_incr, .futex_wake 1, .mutex_unlock,
                    .lthread_join 9, .oe_free] } ∧
    timer_free (some (timer_alloc 1)) 0 =
      .ok { timer := (timer_alloc 1).timer, log := [.mutex_lock, .mutex_unlock, .oe_free] } :=
  ⟨by decide, by decide,
    ((timer_teardown armed_timer 0 (by decide) (by decide)).1 rfl).trans rfl,
    ((timer_teardown (timer_alloc 1) 0 (by decide) (by decide)).2 rfl).trans rfl⟩

/-- C3 as stated fails: on an armed timer with delay 50, after a timeout whose
callback does not rearm the timer, the loop does not stop; the delay is still
50 and a second timeout invokes the callback a second time. -/
theorem worker_fires_again :
    armed_timer.timer.armed = true ∧ armed_timer.timer.delay_ns = 50 ∧
    worker_iter 9 armed_timer plain_timeout =
      ({ timer := armed_timer.timer,
         log := [.mutex_unlock, .futex_timedwait 0 0 50, .mutex_lock, .set_next_delay 0,
                 .callback] }, .again) ∧
    (worker_loop 9 [plain_timeout, plain_timeout] armed_timer).2 = .again ∧
    callbacks (worker_loop 9 [plain_timeout, plain_timeout] armed_timer).1.log = 2 :=
  ⟨rfl, rfl, rfl, rfl, by decide⟩

/-- C3 (amended). For every timer with nonzero delay, when the worker's timed
wait times out and the timer is armed once the mutex is reacquired, the
callback is invoked exactly once in that iteration and the loop goes on to its
next iteration, the timer still armed and the pending delay 0: if the callback
left the pending delay 0 (in particular if it did not call `timer_set_oneshot`)
the delay is the one found when the mutex was reacquired; if it set a nonzero
pending delay, that value is the new delay. -/
theorem worker_timeout_iteration (self : Nat) (s : TimerState) (env : WorkerEnv)
    (hd : s.timer.delay_ns ≠ 0) (ht : env.did_timeout = true)
    (ha : (env.others s.timer).armed = true) (hself : (env.others s.timer).thread = self) :
    (worker_iter self s env).2 = .again ∧
    (∀ envs, worker_loop self (env :: envs) s
      = worker_loop self envs (worker_iter self s env).1) ∧
    callbacks (worker_iter self s env).1.log = callbacks s.log + 1 ∧
    (worker_iter self s env).1.timer.armed = true ∧
    (worker_iter self s env).1.timer.next_delay_ns = 0 ∧
    (worker_iter self s env).1.timer.delay_ns =
      (if (run_callback self ((worker_sleep s env).set_next_delay 0)
            env.requests).timer.next_delay_ns = 0
       then (env.others s.timer).delay_ns
       else (run_callback self ((worker_sleep s env).set_next_delay 0)
            env.requests).timer.next_delay_ns) ∧
    (env.requests = [] →
      (worker_iter self s env).1.timer.delay_ns = (env.others s.timer).delay_ns) := by
  have hs := worker_sleep_timer s env
  have ha' : (worker_sleep s env).timer.armed = true := by rw [hs]; exact ha
  have hself' : (worker_sleep s env).timer.thread = self := by rw [hs]; exact hself
  subst hself'
  obtain ⟨c1, c2, c3, c4⟩ := worker_fire_timeout (worker_sleep s env) env ht ha'
  have hit : worker_iter (worker_sleep s env).timer.thread s env =
      (worker_fire (worker_sleep s env).timer.thread (worker_sleep s env) env, .again) := by
    unfold worker_iter
    simp [hd, ha', c2]
  rw [worker_sleep_callbacks] at c1
  rw [hs] at c4
  refine ⟨by rw [hit], ?_, by rw [hit]; exact c1, by rw [hit]; exact c2, by rw [hit]; exact c3,
    by rw [hit]; rw [hs]; exact c4, ?_⟩
  · intro envs
    rw [worker_loop, hit]
  · intro hreq
    rw [hit]
    simp only [hs] at c4 ⊢
    rw [c4, hreq]
    simp [run_callback, TimerState.emit, TimerState.set_next_delay]

/-- Witness of C3 (amended): the callback asks for 30, then 20, then 25; the
next delay is 20. -/
theorem worker_timeout_iteration_witness :
    armed_timer.timer.delay_ns ≠ 0 ∧
    (worker_iter 9 armed_timer
      { did_timeout := true, others := id, requests := [30, 20, 25] }).2 = .again ∧
    (worker_iter 9 armed_timer
      { did_timeout := true, others := id, requests := [30, 20, 25] }).1.timer.delay_ns = 20 ∧
    callbacks (worker_iter 9 armed_timer
      { did_timeout := true, others := id, requests := [30, 20, 25] }).1.log = 0 + 1 :=
  ⟨by decide,
    (worker_timeout_iteration 9 armed_timer
      { did_timeout := true, others := id, requests := [30, 20, 25] }
      (by decide) rfl rfl rfl).1,
    by decide,
    (worker_timeout_iteration 9 armed_timer
      { did_timeout := true, others := id, requests := [30, 20, 25] }
      (by decide) rfl rfl rfl).2.2.1⟩

/-- C11. The function `thread_create_host` installs before it enqueues: when
the raw-context creation succeeds, the calls it makes are exactly the creation
of the thread from `(pc, sp, tls)`, then the store of `task_value` in the slot
of the new thread for the key, then the enqueue of that thread; the slot
installation comes before the enqueue, and the returned handle is the created
thread. -/
theorem create_host_installs_before_enqueue (pc sp tls : Nat) (task_key : lkl_tls_key)
    (task_value : Nat) (ret : Int) (thread : Nat) (hret : ret = 0) :
    thread_create_host pc sp tls task_key task_value ret thread =
      .ok (thread,
        [.lthread_create_primitive pc sp tls,
         .lthread_setspecific_remote thread task_key.key task_value,
         .scheduler_enqueue thread]) ∧
    List.indexOf (SchedOp.lthread_setspecific_remote thread task_key.key task_value)
        [SchedOp.lthread_create_primitive pc sp tls,
         .lthread_setspecific_remote thread task_key.key task_value,
         .scheduler_enqueue thread] <
      List.indexOf (SchedOp.scheduler_enqueue thread)
        [SchedOp.lthread_create_primitive pc sp tls,
         .lthread_setspecific_remote thread task_key.key task_value,
         .scheduler_enqueue thread] := by
  subst hret
  refine ⟨by simp [thread_create_host], ?_⟩
  simp [List.indexOf_cons]

/-- Witness of C11: a task created at entry 4096 with stack 8192 and TLS area
12288, the slot of key 3 receiving 77; the created thread is 21. -/
theorem create_host_installs_before_enqueue_witness :
    (0 : Int) = 0 ∧
    thread_create_host 4096 8192 12288 { key := 3 } 77 0 21 =
      .ok (21, [.lthread_create_primitive 4096 8192 12288,
                .lthread_setspecific_remote 21 3 77, .scheduler_enqueue 21]) :=
  ⟨rfl, (create_host_installs_before_enqueue 4096 8192 12288 { key := 3 } 77 0 21 rfl).1⟩

/-- C12. Step order of `thread_destroy_host`: on a thread with no joiner the
calls made on the thread are exactly, in this order, the removal from the sleep
queue, the removal of its futex wake registration, the store of `NULL` in its
slot for the key, and the release of the thread structure. -/
theorem destroy_host_step_order (thr : lthread) (task_key : lkl_tls_key) (asserts : Bool)
    (hjoin : thr.lt_join = 0) :
    thread_destroy_host thr task_key asserts =
      .ok [.lthread_desched_sleep thr.handle,
           .futex_dequeue thr.handle,
           .lthread_setspecific_remote thr.handle task_key.key 0,
           .lthread_free thr.handle] := by
  simp [thread_destroy_host, hjoin]

/-- Witness of C12: thread 21 with no joiner, key 3. -/
theorem destroy_host_step_order_witness :
    thread_destroy_host { handle := 21, tid := 5, lt_join := 0 } { key := 3 } true =
      .ok [.lthread_desched_sleep 21, .futex_dequeue 21,
           .lthread_setspecific_remote 21 3 0, .lthread_free 21] :=
  destroy_host_step_order { handle := 21, tid := 5, lt_join := 0 } { key := 3 } true rfl

/-- C13. The timer callback fires only on a genuine timeout of an armed timer:
in an iteration of the worker loop the callback is invoked exactly once if the
delay at the top of the iteration was nonzero, the timed futex wait reported a
timeout and the timer is armed once the mutex is reacquired, and zero times
otherwise; a wait that did not time out, ended for instance by an external
rearm, loops again with the timer as the other threads left it, so with the
updated delay; a worker that finds the timer disarmed stops. -/
theorem callback_only_on_timeout (self : Nat) (s : TimerState) (env : WorkerEnv) :
    callbacks (worker_iter self s env).1.log =
      callbacks s.log +
        (if s.timer.delay_ns ≠ 0 ∧ env.did_timeout = true ∧ (env.others s.timer).armed = true
         then 1 else 0) ∧
    (s.timer.delay_ns ≠ 0 → env.did_timeout = false → (env.others s.timer).armed = true →
      (worker_iter self s env).2 = .again ∧
      (worker_iter self s env).1.timer = env.others s.timer) ∧
    (s.timer.delay_ns ≠ 0 → (env.others s.timer).armed = false →
      (worker_iter self s env).2 = .stopped) := by
  have hs := worker_sleep_timer s env
  have hc := worker_sleep_callbacks s env
  refine ⟨?_, ?_, ?_⟩
  · unfold worker_iter
    by_cases hd : s.timer.delay_ns = 0
    · simp [hd]
    · by_cases ha : (env.others s.timer).armed = true
      · have ha' : ¬ (worker_sleep s env).timer.armed = false := by rw [hs]; simp [ha]
        simp only [hd, if_false, ha', Bool.true_eq_false]
        rw [worker_fire_callbacks, hc]
        by_cases ht : env.did_timeout = true <;> simp [hd, ha, ht]
      · have ha' : (worker_sleep s env).timer.armed = false := by rw [hs]; simpa using ha
        simp [hd, ha', hc, ha]
  · intro hd ht ha
    have ha' : ¬ (worker_sleep s env).timer.armed = false := by rw [hs]; simp [ha]
    have hf : worker_fire self (worker_sleep s env) env = worker_sleep s env := by
      simp [worker_fire, ht]
    unfold worker_iter
    simp only [hd, if_false, ha', hf]
    simp [hs, ha]
  · intro hd ha
    have ha' : (worker_sleep s env).timer.armed = false := by rw [hs]; exact ha
    unfold worker_iter
    simp [hd, ha']

/-- Witness of C13: a timer armed for 500 is rearmed for 20 by thread 5 while
the worker sleeps; the worker loops again without invoking the callback, sleeps
for 20, and the timeout of that sleep invokes the callback once. -/
theorem callback_only_on_timeout_witness :
    callbacks (worker_iter 9 slow_timer rearm_during_sleep).1.log = 0 ∧
    (worker_iter 9 slow_timer rearm_during_sleep).2 = .again ∧
    (worker_iter 9 slow_timer rearm_during_sleep).1.timer.delay_ns = 20 ∧
    (worker_loop 9 [rearm_during_sleep, plain_timeout] slow_timer).1.log =
      [.mutex_unlock, .futex_timedwait 0 0 500, .mutex_lock,
       .mutex_unlock, .futex_timedwait 1 0 20, .mutex_lock, .set_next_delay 0, .callback] :=
  ⟨(callback_only_on_timeout 9 slow_timer rearm_during_sleep).1,
    ((callback_only_on_timeout 9 slow_timer rearm_during_sleep).2.1 (by decide) rfl rfl).1,
    by decide, by decide⟩

/-- C14. Timer race-freedom: in every state reachable by any interleaving of
the atomic steps of `timer_callback`, `timer_set_oneshot` and `timer_free` on a
timer created by `timer_alloc`: (1) a step changes the counter only if the
thread performing it holds the timer mutex, and then the step is one increment
by 1 in `int` arithmetic, counted by `incrs`; (2) a worker at its snapshot holds
the mutex, and the snapshot records the current counter; (3) between the
snapshot and the worker's unlock the worker still holds the mutex, the counter
is the snapshot, and no step of any thread changes it; (4) at the comparison of
the timed wait, if no increment happened since the snapshot the counter is the
snapshot, and if at least one and fewer than `2^32` happened the counter
differs from the snapshot, so that the wait does not sleep: the worker goes on
to take the mutex again, without a timeout being reported. -/
theorem timer_generation_race_free (fn : Nat) (es : List (Nat × TAct)) :
    (∀ e : Nat × TAct,
      (((TimerSys.init fn).run es).step e).timer.wake = ((TimerSys.init fn).run es).timer.wake ∧
        (((TimerSys.init fn).run es).step e).incrs = ((TimerSys.init fn).run es).incrs ∨
      ((TimerSys.init fn).run es).holder = some e.1 ∧
        (((TimerSys.init fn).run es).step e).incrs = ((TimerSys.init fn).run es).incrs + 1 ∧
        (((TimerSys.init fn).run es).step e).timer.wake =
          wrapInt32 (((TimerSys.init fn).run es).timer.wake + 1) ∧
        (((TimerSys.init fn).run es).step e).timer.wake ≠
          ((TimerSys.init fn).run es).timer.wake) ∧
    (∀ t, ((TimerSys.init fn).run es).thr t = .cb_snapshot →
      ((TimerSys.init fn).run es).holder = some t ∧
      (((TimerSys.init fn).run es).freed = false → ∀ o r,
        (((TimerSys.init fn).run es).step (t, .run o r)).thr t =
          .cb_unlock ((TimerSys.init fn).run es).timer.wake ((TimerSys.init fn).run es).incrs)) ∧
    (∀ t v n, ((TimerSys.init fn).run es).thr t = .cb_unlock v n →
      ((TimerSys.init fn).run es).holder = some t ∧
      ((TimerSys.init fn).run es).timer.wake = v ∧
      ∀ e, (((TimerSys.init fn).run es).step e).timer.wake =
        ((TimerSys.init fn).run es).timer.wake) ∧
    (∀ t v n, ((TimerSys.init fn).run es).thr t = .cb_wait v n →
      n ≤ ((TimerSys.init fn).run es).incrs ∧
      (n = ((TimerSys.init fn).run es).incrs → ((TimerSys.init fn).run es).timer.wake = v) ∧
      (n < ((TimerSys.init fn).run es).incrs →
        ((TimerSys.init fn).run es).incrs - n < 4294967296 →
        ((TimerSys.init fn).run es).timer.wake ≠ v ∧
        (((TimerSys.init fn).run es).freed = false → ∀ o r,
          (((TimerSys.init fn).run es).step (t, .run o r)).thr t = .cb_relock false))) := by
  obtain ⟨hI1, hI2, hI3⟩ := timerInv_run es (TimerSys.init fn) (timerInv_init fn)
  generalize (TimerSys.init fn).run es = s at hI1 hI2 hI3 ⊢
  have hstep : ∀ e : Nat × TAct,
      (s.step e).timer.wake = s.timer.wake ∧ (s.step e).incrs = s.incrs ∨
      s.holder = some e.1 ∧ (s.step e).incrs = s.incrs + 1 ∧
        (s.step e).timer.wake = wrapInt32 (s.timer.wake + 1) ∧
        (s.step e).timer.wake ≠ s.timer.wake := by
    intro e
    obtain ⟨-, -, -, -, hF⟩ := timer_thread_step_ok s e.1 e.2 (hI1 e.1) hI2 (hI3 e.1)
    rcases hF with hF | ⟨h1, h2, h3⟩
    · exact Or.inl hF
    · refine Or.inr ⟨h1, h2, h3, ?_⟩
      show (timer_thread_step s e.1 e.2).timer.wake ≠ s.timer.wake
      rw [h3]
      have := wrapInt32_range s.incrs
      rw [← hI2] at this
      unfold wrapInt32 INT_MIN INT_MAX at *
      omega
  refine ⟨hstep, ?_, ?_, ?_⟩
  · intro t hp
    refine ⟨(hI1 t).mp (by rw [hp]; rfl), ?_⟩
    intro hf o r
    rw [timerSys_step_thr_self]
    unfold timer_thread_step
    simp [hf, hp, TimerSys.goto]
  · intro t v n hp
    have h3 := hI3 t
    rw [hp] at h3
    refine ⟨(hI1 t).mp (by rw [hp]; rfl), h3.1.symm, ?_⟩
    intro e
    rcases hstep e with h | ⟨h1, -, -, h4⟩
    · exact h.1
    · have ht : e.1 = t := by
        have := (hI1 t).mp (by rw [hp]; rfl)
        rw [this] at h1
        exact (Option.some.inj h1).symm
      exact absurd (by rw [← ht] at hp; exact timer_thread_step_unlock_keeps s e.1 e.2 v n hp) h4
  · intro t v n hp
    have h3 := hI3 t
    rw [hp] at h3
    obtain ⟨hv, hn⟩ := h3
    refine ⟨hn, ?_, ?_⟩
    · intro e; rw [hI2, hv, e]
    · intro hlt hbound
      have hne : s.timer.wake ≠ v := by
        rw [hI2, hv]
        exact wrapInt32_ne_of_lt n s.incrs hlt hbound
      refine ⟨hne, ?_⟩
      intro hf o r
      rw [timerSys_step_thr_self]
      exact timer_thread_step_compare s t o r v n hp hf hne

/-- Witness of C14: thread 5 rearms the timer after the worker 9 has taken its
snapshot 0 and released the mutex, and before the wait compares; the counter is
1, and the wait returns without sleeping. -/
theorem timer_generation_race_free_witness :
    ((TimerSys.init 1).run rearm_before_compare).thr 9 = .cb_wait 0 0 ∧
    ((TimerSys.init 1).run rearm_before_compare).incrs = 1 ∧
    ((TimerSys.init 1).run rearm_before_compare).timer.wake ≠ 0 ∧
    (((TimerSys.init 1).run rearm_before_compare).step (9, .run 0 [])).thr 9
      = .cb_relock false :=
  ⟨by decide, by decide,
    (((timer_generation_race_free 1 rearm_before_compare).2.2.2 9 0 0 (by decide)).2.2
      (by decide) (by decide)).1,
    (((timer_generation_race_free 1 rearm_before_compare).2.2.2 9 0 0 (by decide)).2.2
      (by decide) (by decide)).2 (by decide) 0 []⟩

end SgxLkl
